import Mathlib

/-!
Verification of the kindling synthetic-record generator.

Shallow embedding of the generation core: the seeded random source
(src/kindling/utils/random_utils.py), the bundle assembler
(src/kindling/bundle_assembler.py) and the generator / resource factory
(src/kindling/generator.py, src/kindling/resource_factory.py).

Conventions of the embedding:
* Python dicts used as string-keyed mappings become association lists with
  first-occurrence lookup (Python dict keys are unique).
* Timestamps are integers counting days; "now" is an explicit parameter
  `now : Int`, and `datetime.now() - timedelta(days = d)` becomes `now - d`.
* The Python stdlib PRNG `random.Random` (an external dependency of
  SeededRandom) is modelled abstractly as a deterministic stream of natural
  numbers plus a position; each primitive draw consumes exactly one stream
  element, and the bounded draws land in the requested interval.  Float
  draws (`uniform`) are modelled as bounded integer draws; no claim below
  depends on the numeric distribution, only on determinism and bounds.
* Fallible code returns `Except String`.
-/

namespace Kindling

/-! ## Association-list model of Python dicts -/

abbrev Mapping := List (String × String)

/-- Python dict lookup `m.get(k)` / `k in m` (keys are unique in a dict; the
first binding is the binding). -/
def mget (m : Mapping) (k : String) : Option String :=
  match m with
  | [] => none
  | (a, b) :: rest => if a = k then some b else mget rest k

/-- Python dict assignment `m[k] = v`: overwrite the existing binding if the
key is present, otherwise append a new binding. -/
def mapInsert (m : Mapping) (k v : String) : Mapping :=
  if (mget m k).isSome then
    m.map (fun p => if p.1 = k then (k, v) else p)
  else
    m ++ [(k, v)]

/-! ## Deterministic random source

`SeededRandom` (src/kindling/utils/random_utils.py) wraps `random.Random(seed)`.
The wrapped stdlib generator is modelled as an abstract deterministic stream:
a function from positions to raw natural draws.  Every method of
`SeededRandom` consumes stream elements strictly in order, exactly as every
method of the source advances the single shared `self.rng`. -/

structure SeededRandom where
  stream : Nat → Nat
  pos : Nat

def SeededRandom.next (r : SeededRandom) : Nat × SeededRandom :=
  (r.stream r.pos, { r with pos := r.pos + 1 })

/-- `randint(a, b)`: uniform integer in `[a, b]` inclusive; one draw. -/
def SeededRandom.randint (r : SeededRandom) (a b : Int) : Int × SeededRandom :=
  let (n, r') := r.next
  (a + Int.ofNat (n % (b - a + 1).toNat), r')

/-- `round(uniform(a, b), 2)` value draws are modelled as bounded integer
draws; one draw, result within `[a, b]`. -/
def SeededRandom.uniformInt (r : SeededRandom) (a b : Int) : Int × SeededRandom :=
  r.randint a b

/-- `choice(seq)`: one draw selecting an element. -/
def SeededRandom.choice (r : SeededRandom) (xs : List String) : String × SeededRandom :=
  let (n, r') := r.next
  (xs.getD (n % xs.length) "", r')

def pickWeighted (n : Nat) (d : String) : List (String × Nat) → String
  | [] => d
  | (x, w) :: rest => if n < w then x else pickWeighted (n - w) d rest

/-- `weighted_choice(weights)`: `rng.choices(choices, weights)[0]`; one draw,
selection by cumulative weight. -/
def SeededRandom.weightedChoice (r : SeededRandom) (ws : List (String × Nat)) :
    String × SeededRandom :=
  let (n, r') := r.next
  let total := (ws.map Prod.snd).sum
  (pickWeighted (n % max total 1) "" ws, r')

def hexDigit (n : Nat) : Char :=
  if n < 10 then Char.ofNat (48 + n) else Char.ofNat (87 + n)

def byteHex (n : Nat) : String :=
  String.mk [hexDigit (n / 16 % 16), hexDigit (n % 16)]

/-- Canonical 8-4-4-4-12 formatting of 16 bytes, as `str(uuid.UUID(bytes=b))`. -/
def formatUuid (bs : List Nat) : String :=
  let hx := bs.map byteHex
  String.join (hx.take 4) ++ "-" ++ String.join ((hx.drop 4).take 2) ++ "-" ++
    String.join ((hx.drop 6).take 2) ++ "-" ++ String.join ((hx.drop 8).take 2) ++
    "-" ++ String.join (hx.drop 10)

def drawBytes : Nat → SeededRandom → List Nat × SeededRandom
  | 0, r => ([], r)
  | n + 1, r =>
    let (b, r') := r.randint 0 255
    let (bs, r'') := drawBytes n r'
    (b.toNat :: bs, r'')

/-- `uuid()`: 16 bytes drawn via `randint(0, 255)` from the seeded stream,
formatted as a canonical UUID string. -/
def SeededRandom.uuid (r : SeededRandom) : String × SeededRandom :=
  let (bs, r') := drawBytes 16 r
  (formatUuid bs, r')

/-! ## Structured record content and reference rewriting

`_update_references` (src/kindling/bundle_assembler.py lines 206-223) walks the
`model_dump()` dictionary form of a record.  That JSON-like form is the
type `RData` below. -/

inductive RData where
  | str : String → RData
  | num : Int → RData
  | null : RData
  | arr : List RData → RData
  | dict : List (String × RData) → RData

/-- Python `s.startswith(p)` over the character sequence. -/
def strStartsWith (s p : String) : Bool :=
  p.data.isPrefixOf s.data

/-- The rewrite applied to the string under a `"reference"` key: a reference
already in transport-local form (`urn:uuid:` prefix) is left untouched;
otherwise a two-part relative reference `Type/id` whose `id` is in the
mapping is redirected to `urn:uuid:` plus the mapped transport id. -/
def rewriteRef (m : Mapping) (s : String) : String :=
  if strStartsWith s "urn:uuid:" then s
  else
    match s.splitOn "/" with
    | [_, refId] =>
      match mget m refId with
      | some urn => "urn:uuid:" ++ urn
      | none => s
    | _ => s

/-
`_update_references`: rewrite the value under the first `"reference"` key
of every dictionary (Python dict keys are unique, so first occurrence is the
occurrence), then recurse into all values.  The source mutates the reference
string before recursing into values; recursing into a string is the identity,
so the rewrite is applied directly here.  The `Bool` argument of the fields
walker tracks whether the `"reference"` rewrite is still pending.
-/

mutual

/-- Recursive reference rewrite of `_update_references` on one value. -/
def update_references (m : Mapping) : RData → RData
  | .str s => .str s
  | .num n => .num n
  | .null => .null
  | .arr xs => .arr (updateRefsList m xs)
  | .dict fs => .dict (updateRefsFields m true fs)

def updateRefsList (m : Mapping) : List RData → List RData
  | [] => []
  | x :: xs => update_references m x :: updateRefsList m xs

def updateRefsFields (m : Mapping) : Bool → List (String × RData) → List (String × RData)
  | _, [] => []
  | pending, (k, RData.str s) :: fs =>
    if pending && (k == "reference") then
      (k, RData.str (rewriteRef m s)) :: updateRefsFields m false fs
    else
      (k, RData.str s) :: updateRefsFields m pending fs
  | pending, (k, v) :: fs =>
    if pending && (k == "reference") then
      (k, update_references m v) :: updateRefsFields m false fs
    else
      (k, update_references m v) :: updateRefsFields m pending fs

end

/-! ## Bundle assembly (src/kindling/bundle_assembler.py)

A resource, as the assembler sees it: its `id`, its `resource_type`, its
`identifier` list projected to `(system, value)` pairs, and its
`model_dump()` structured content. -/

structure BRes where
  id : Option String
  resourceType : String
  identifiers : List (String × String)
  content : RData

structure BundleRequest where
  method : String
  url : String
  ifNoneMatch : Option String
  ifNoneExist : Option String

structure BundleEntryL where
  fullUrl : String
  resource : RData
  request : Option BundleRequest

/-- Python `f"{x}"` applied to an optional id (`None` prints as "None"). -/
def idStr : Option String → String
  | some i => i
  | none => "None"

def removeFirstKey (k : String) : List (String × RData) → List (String × RData)
  | [] => []
  | (a, v) :: fs => if a = k then fs else (a, v) :: removeFirstKey k fs

/-- `resource_dict.pop('id', None)` on the dumped content. -/
def popId : RData → RData
  | .dict fs => .dict (removeFirstKey "id" fs)
  | d => d

/-- The `request` attached for transaction bundles
(src/kindling/bundle_assembler.py lines 148-204). -/
def entryRequest (resource : BRes) (bundle_type request_method : String) :
    Option BundleRequest :=
  if bundle_type = "transaction" then
    if request_method = "PUT" then
      some ⟨"PUT", resource.resourceType ++ "/" ++ idStr resource.id, some "*", none⟩
    else if request_method = "CONDITIONAL" then
      let identifier_value : Option String :=
        match resource.identifiers with
        | (sys, v) :: _ => some (sys ++ "|" ++ v)
        | [] => none
      if resource.resourceType = "Patient" then
        match identifier_value.or resource.id with
        | some s =>
          if s ≠ "" then some ⟨"POST", "Patient?identifier=" ++ s, none, none⟩
          else some ⟨"POST", resource.resourceType, none, none⟩
        | none => some ⟨"POST", resource.resourceType, none, none⟩
      else
        some ⟨"POST", resource.resourceType, none, none⟩
    else
      match resource.identifiers with
      | (sys, v) :: _ =>
        if resource.resourceType = "Patient" then
          some ⟨"POST", resource.resourceType, none,
            some ("identifier=" ++ sys ++ "|" ++ v)⟩
        else
          some ⟨"POST", resource.resourceType, none, none⟩
      | [] => some ⟨"POST", resource.resourceType, none, none⟩
  else
    none

/-- `_create_bundle_entry`: build one entry, extending the (mutable in the
source, threaded here) combined mapping; `fresh` models the `uuid.uuid4()`
drawn for an unmapped id. -/
def create_bundle_entry (resource : BRes) (bundle_type request_method : String)
    (urn_mapping : Mapping) (fresh : String) : BundleEntryL × Mapping :=
  let original_id := resource.id
  if request_method = "POST" then
    let urn_uuid :=
      match resource.id with
      | some rid =>
        if urn_mapping ≠ [] then
          match mget urn_mapping rid with
          | some u => u
          | none => fresh
        else fresh
      | none => fresh
    let mapping' :=
      match original_id with
      | some oid =>
        if oid ≠ "" ∧ urn_uuid ≠ "" then mapInsert urn_mapping oid urn_uuid
        else urn_mapping
      | none => urn_mapping
    let content₁ := popId resource.content
    let content₂ := if mapping' ≠ [] then update_references mapping' content₁ else content₁
    (⟨"urn:uuid:" ++ urn_uuid, content₂, entryRequest resource bundle_type request_method⟩,
      mapping')
  else
    (⟨"urn:uuid:" ++ idStr resource.id, resource.content,
      entryRequest resource bundle_type request_method⟩, urn_mapping)

/-- The entry loop of `create_bundle`, threading the combined mapping that
the source mutates in place; the `Nat` indexes the fresh-id supply. -/
def entriesLoop (bundle_type request_method : String) (fresh : Nat → String) :
    List BRes → Mapping → Nat → List BundleEntryL × Mapping
  | [], m, _ => ([], m)
  | r :: rs, m, i =>
    let em := create_bundle_entry r bundle_type request_method m (fresh i)
    let esm := entriesLoop bundle_type request_method fresh rs em.2 (i + 1)
    (em.1 :: esm.1, esm.2)

/-- `create_bundle`: validate the bundle type (and, for transactions, the
request method), copy the caller mapping into a combined mapping, then build
one entry per resource.  The returned value is the entry list of the bundle. -/
def create_bundle (resources : List BRes) (bundle_type request_method : String)
    (urn_mapping : Mapping) (fresh : Nat → String) : Except String (List BundleEntryL) :=
  if bundle_type ≠ "transaction" ∧ bundle_type ≠ "collection" then
    .error ("Invalid bundle type: " ++ bundle_type)
  else if bundle_type = "transaction" ∧ request_method ≠ "POST" ∧
      request_method ≠ "PUT" ∧ request_method ≠ "CONDITIONAL" then
    .error ("Invalid request method: " ++ request_method)
  else
    .ok (entriesLoop bundle_type request_method fresh resources urn_mapping 0).1

/-- The chunking of `create_bundles`: `for i in range(0, len(resources),
bundle_size)` with slices `resources[i : i + bundle_size]`.  Only meaningful
for a positive size (a non-positive step makes the source raise or loop
zero times). -/
def chunkList {α : Type} (size : Nat) (xs : List α) : List (List α) :=
  if h : xs.isEmpty ∨ size = 0 then []
  else xs.take size :: chunkList size (xs.drop size)
termination_by xs.length
decreasing_by
  push_neg at h
  obtain ⟨h1, h2⟩ := h
  have hx : xs ≠ [] := by simpa [List.isEmpty_iff] using h1
  have : 0 < xs.length := List.length_pos.mpr hx
  simp only [List.length_drop]
  omega

def bundlesLoop (bundle_type request_method : String) (urn_mapping : Mapping)
    (fresh : Nat → String) : List (List BRes) → Except String (List (List BundleEntryL))
  | [] => .ok []
  | c :: cs =>
    match create_bundle c bundle_type request_method urn_mapping fresh with
    | .error e => .error e
    | .ok b =>
      match bundlesLoop bundle_type request_method urn_mapping fresh cs with
      | .error e => .error e
      | .ok bs => .ok (b :: bs)

/-- `create_bundles`: split into consecutive chunks of at most
`bundle_size`, one bundle per chunk, and append a single empty bundle when
no bundle was produced. -/
def create_bundles (resources : List BRes) (bundle_type : String) (bundle_size : Nat)
    (request_method : String) (urn_mapping : Mapping) (fresh : Nat → String) :
    Except String (List (List BundleEntryL)) :=
  match bundlesLoop bundle_type request_method urn_mapping fresh
      (chunkList bundle_size resources) with
  | .error e => .error e
  | .ok bs =>
    if bs.isEmpty then
      match create_bundle [] bundle_type request_method urn_mapping fresh with
      | .error e => .error e
      | .ok b => .ok [b]
    else
      .ok bs

/-! ## Store model of dict aliasing, for the frame property of create_bundle

Python dicts are mutable heap objects.  To state that `create_bundle` never
mutates the caller-supplied `urn_mapping`, dict objects live in a store and
are denoted by indices; `dict(urn_mapping or {})` allocates a fresh object
holding a copy. -/

abbrev Store := List Mapping

def storeGet (st : Store) (r : Nat) : Mapping := st.getD r []

def storeSet (st : Store) (r : Nat) (m : Mapping) : Store := st.set r m

/-- `_create_bundle_entry` acting on the store: it reads the dict at `mref`,
performs the body of the method on it, and writes the updated dict back in
place at `mref` (the source mutates `urn_mapping` directly). -/
def create_bundle_entry_st (st : Store) (mref : Nat) (resource : BRes)
    (bundle_type request_method : String) (fresh : String) : Store × BundleEntryL :=
  let m := storeGet st mref
  let p := create_bundle_entry resource bundle_type request_method m fresh
  (storeSet st mref p.2, p.1)

def entriesLoopSt (bundle_type request_method : String) (fresh : Nat → String) :
    List BRes → Store → Nat → Nat → Store × List BundleEntryL
  | [], st, _, _ => (st, [])
  | r :: rs, st, mref, i =>
    let se := create_bundle_entry_st st mref r bundle_type request_method (fresh i)
    let rest := entriesLoopSt bundle_type request_method fresh rs se.1 mref (i + 1)
    (rest.1, se.2 :: rest.2)

/-- `create_bundle` on the store: validate, then allocate the combined
mapping as a fresh dict object holding a copy of the caller's mapping
(`combined_mapping = dict(urn_mapping or {})`), and build the entries
against that fresh object. -/
def create_bundle_st (st : Store) (caller : Option Nat) (resources : List BRes)
    (bundle_type request_method : String) (fresh : Nat → String) :
    Except String (Store × List BundleEntryL) :=
  if bundle_type ≠ "transaction" ∧ bundle_type ≠ "collection" then
    .error ("Invalid bundle type: " ++ bundle_type)
  else if bundle_type = "transaction" ∧ request_method ≠ "POST" ∧
      request_method ≠ "PUT" ∧ request_method ≠ "CONDITIONAL" then
    .error ("Invalid request method: " ++ request_method)
  else
    let combined : Mapping :=
      match caller with
      | some r => storeGet st r
      | none => []
    .ok (entriesLoopSt bundle_type request_method fresh resources
      (st ++ [combined]) st.length 0)

/-! ## Rule conditions (src/kindling/generator.py lines 267-281) -/

/-- ASCII lowercasing of one character, as Python `str.lower` on the ASCII
range. -/
def lowerChar (c : Char) : Char :=
  if 'A' ≤ c ∧ c ≤ 'Z' then Char.ofNat (c.toNat + 32) else c

/-- ASCII uppercasing of one character, as Python `str.upper` on the ASCII
range. -/
def upperChar (c : Char) : Char :=
  if 'a' ≤ c ∧ c ≤ 'z' then Char.ofNat (c.toNat - 32) else c

def pyLower (s : String) : String := String.mk (s.data.map lowerChar)

def pyUpper (s : String) : String := String.mk (s.data.map upperChar)

def splitOnChar (c : Char) : List Char → List (List Char)
  | [] => [[]]
  | x :: xs =>
    if x = c then [] :: splitOnChar c xs
    else
      match splitOnChar c xs with
      | h :: t => (x :: h) :: t
      | [] => [[x]]

/-- Python `s.split(sep)` for a one-character separator. -/
def pySplit (s : String) (sep : Char) : List String :=
  (splitOnChar sep s.data).map String.mk

def isSpaceChar (c : Char) : Bool :=
  (c == ' ') || (c == '\t') || (c == '\n') || (c == '\r')

/-- Python `s.strip()`: remove leading and trailing whitespace. -/
def pyStrip (s : String) : String :=
  String.mk (((s.data.dropWhile isSpaceChar).reverse.dropWhile isSpaceChar).reverse)

def infixCheck (sub : List Char) : List Char → Bool
  | [] => sub.isEmpty
  | c :: t => sub.isPrefixOf (c :: t) || infixCheck sub t

/-- Python substring containment `sub in s`. -/
def strContains (s sub : String) : Bool :=
  infixCheck sub.data s.data

/-- Python `int(s)` on an already-stripped string: optional sign followed by
decimal digits (the underscore digit-separator extension is not modelled). -/
def pyInt? (s : String) : Option Int :=
  let core : List Char → Option Nat := fun ds =>
    if ds.isEmpty then none
    else if ds.all Char.isDigit then
      some (ds.foldl (fun acc c => acc * 10 + (c.toNat - 48)) 0)
    else none
  match s.data with
  | '-' :: rest => (core rest).map (fun n => -(n : Int))
  | '+' :: rest => (core rest).map (fun n => (n : Int))
  | ds => (core ds).map (fun n => (n : Int))

/-- `_evaluate_rule_condition`: the literal `"true"` matches; otherwise, when
the substring `"age >"` occurs in the condition, the text after the first
`">"` is stripped and parsed with `int()` (raising `ValueError` when it is
not an integer) and compared against `context.get("age", 0)`; every other
condition yields no match. -/
def evaluate_rule_condition (condition : String) (ctxAge : Option Int) :
    Except String Bool :=
  if condition = "true" then .ok true
  else if strContains condition "age >" then
    match (pySplit condition '>').get? 1 with
    | some part =>
      match pyInt? (pyStrip part) with
      | some n => .ok (ctxAge.getD 0 > n)
      | none => .error "ValueError: invalid literal for int"
    | none => .error "IndexError"
  else .ok false

/-! ## Time-point schedules (src/kindling/generator.py lines 649-681) -/

/-- The relevant keys of a `times` specification dict; `none` stands for an
absent key.  An absent or empty dict is `Option.none` at the use sites. -/
structure TimesSpec where
  qty : Option Int
  days_ago : Option Int
  lookback_months : Option Int
  lookback_days : Option Int
  spacing_days : Option Int

/-- `int(round(num / den))` on the exact rational, with Python's
round-half-to-even; the source computes this through floats, which agrees
on the small values used here up to float rounding of the quotient. -/
def roundHalfEven (num den : Int) : Int :=
  let q := num.fdiv den
  let r := num - q * den
  if 2 * r < den then q
  else if 2 * r > den then q + 1
  else if q % 2 = 0 then q else q + 1

/-- `[rng.randint(a, b) for _ in range(n)]`. -/
def drawN (a b : Int) : Nat → SeededRandom → List Int × SeededRandom
  | 0, r => ([], r)
  | n + 1, r =>
    let (x, r') := r.randint a b
    let (xs, r'') := drawN a b n r'
    (x :: xs, r'')

/-- Python `sorted` on integers. -/
def sortInts (xs : List Int) : List Int :=
  List.insertionSort (· ≤ ·) xs

/-- `_generate_time_points`: timestamps (as day numbers) for repeated
resource creation.  Returns the timestamp list and the advanced generator. -/
def generate_time_points (rng : SeededRandom) (times : Option TimesSpec) (now : Int) :
    List Int × SeededRandom :=
  let qty : Int :=
    match times with
    | none => 1
    | some t => max (t.qty.getD 1) 1
  let qtyN : Nat := qty.toNat
  match times with
  | none =>
    let dr := drawN 1 30 qtyN rng
    (dr.1.map (fun d => now - d), dr.2)
  | some t =>
    match t.days_ago with
    | some base =>
      if qty = 1 then ([now - base], rng)
      else
        let spacing := t.spacing_days.getD (max (base.fdiv (max (qty - 1) 1)) 1)
        ((List.range qtyN).map (fun (i : Nat) => now - (base + (i : Int) * spacing)), rng)
    | none =>
      match t.lookback_months with
      | some lm =>
        let total := lm * 30
        if qty = 1 then
          let dr := rng.randint 0 (max total 1)
          ([now - dr.1], dr.2)
        else
          ((List.range qtyN).map
            (fun (i : Nat) => now - roundHalfEven ((i : Int) * total) (max (qty - 1) 1)), rng)
      | none =>
        match t.lookback_days with
        | some ld =>
          let dr := drawN 0 (max ld 1) qtyN rng
          ((sortInts dr.1).map (fun d => now - d), dr.2)
        | none =>
          let dr := drawN 1 30 qtyN rng
          (dr.1.map (fun d => now - d), dr.2)

/-! ## Generator data model

Typed projections of the definition dicts read by the resource factory; an
`Option` field is an optionally-present key.  Record fields not read by any
claim and filled with constants in the source (addresses, telecom, coding
systems, status strings and similar) are omitted from the projections. -/

structure NameDef where
  family : Option String
  given : Option (List String)

structure PatientDef where
  name : Option NameDef
  gender : Option String
  birthDate : Option Int
  identifiers : List (String × String)
  phone : Option String
  email : Option String

structure ConditionDef where
  code : Option String
  years_ago : Option Int

structure ObservationDef where
  loinc : Option String
  display : Option String
  value_type : Option String
  value : Option Int
  rmin : Option Int
  rmax : Option Int
  unitName : Option String
  positive : Option Bool
  codedCode : Option String
  times : Option TimesSpec

structure MedicationDef where
  rxnorm : Option String

structure RelatedDef where
  name : Option NameDef
  relationship : Option String
  active : Option Bool
  gender : Option String
  birthDate : Option Int
  identifiers : List (String × String)
  phone : Option String
  email : Option String

structure ReportDef where
  code : Option String
  days_ago : Option Int
  observations : List ObservationDef

structure ImmunizationDef where
  vaccineCode : Option String
  qty : Option Int
  days_ago : Option Int
  doseNumber : Option Int
  status : Option String

structure CoverageDef where
  status : Option String
  subscriber : Option String

structure EncounterDef where
  qty : Option Int
  spread_months : Option Int
  days_ago : Option Int
  duration_hours : Option Int

inductive ObsValue where
  | quantity : Int → String → ObsValue
  | boolean : Bool → ObsValue
  | text : String → ObsValue
  | integer : Int → ObsValue
  | coded : Option String → ObsValue

structure PatientR where
  id : String
  nameFamily : String
  nameGiven : List String
  gender : String
  birthDate : Option Int
  identifiers : List (String × String)

structure RelatedPersonR where
  id : String
  patientRef : String
  active : Bool
  relationshipCode : String
  relationshipDisplay : String
  identifiers : List (String × String)
  nameFamily : String
  nameGiven : List String
  gender : Option String
  birthDate : Option Int

structure ImmunizationR where
  id : String
  patientRef : String
  status : String
  occurrence : Int
  doseQuantity : Option Int

/-- The generated record kinds, projected to the fields the claims involve:
identifiers, reference fields, relationship coding, dose and timing fields. -/
inductive Resource where
  | patient : PatientR → Resource
  | condition : String → String → Option String → Int → Resource
  | observation : String → String → Option String → Int → ObsValue → Resource
  | medicationRequest : String → String → Option String → Resource
  | relatedPerson : RelatedPersonR → Resource
  | diagnosticReport : String → String → Option String → Int → List String → Resource
  | immunization : ImmunizationR → Resource
  | coverage : String → String → String → Resource
  | encounter : String → String → Int → Int → Resource

/-- `resource.__class__.__name__` / `resource.resource_type`. -/
def Resource.rtype : Resource → String
  | .patient _ => "Patient"
  | .condition _ _ _ _ => "Condition"
  | .observation _ _ _ _ _ => "Observation"
  | .medicationRequest _ _ _ => "MedicationRequest"
  | .relatedPerson _ => "RelatedPerson"
  | .diagnosticReport _ _ _ _ _ => "DiagnosticReport"
  | .immunization _ => "Immunization"
  | .coverage _ _ _ => "Coverage"
  | .encounter _ _ _ _ => "Encounter"

/-- The durable identifier of a record. -/
def Resource.rid : Resource → String
  | .patient p => p.id
  | .condition i _ _ _ => i
  | .observation i _ _ _ _ => i
  | .medicationRequest i _ _ => i
  | .relatedPerson rp => rp.id
  | .diagnosticReport i _ _ _ _ => i
  | .immunization im => im.id
  | .coverage i _ _ => i
  | .encounter i _ _ _ => i

/-- Erase every "now"-derived timestamp field, leaving identifiers,
references and all other content; used to state that identifiers do not
depend on the wall clock. -/
def Resource.timeErase : Resource → Resource
  | .patient p => .patient { p with birthDate := none }
  | .condition i s c _ => .condition i s c 0
  | .observation i s l _ v => .observation i s l 0 v
  | .medicationRequest i s rx => .medicationRequest i s rx
  | .relatedPerson rp => .relatedPerson { rp with birthDate := none }
  | .diagnosticReport i s c _ refs => .diagnosticReport i s c 0 refs
  | .immunization im => .immunization { im with occurrence := 0 }
  | .coverage i b s => .coverage i b s
  | .encounter i s _ d => .encounter i s 0 d

/-! ## Resource factory (src/kindling/resource_factory.py) -/

/-- `x or self.rng.uuid()` for an optional pre-assigned id (an empty string
is falsy in Python and also triggers a draw). -/
def idOrUuid (given : Option String) (rng : SeededRandom) : String × SeededRandom :=
  match given with
  | some i => if i ≠ "" then (i, rng) else rng.uuid
  | none => rng.uuid

/-- `patient_ref or f"Patient/{patient_id}"`. -/
def refOr (patient_ref : Option String) (patient_id : String) : String :=
  match patient_ref with
  | some r => if r ≠ "" then r else "Patient/" ++ patient_id
  | none => "Patient/" ++ patient_id

/-- `create_patient`: defaults name to Doe/John, gender to "unknown", passes
`birthDate` through, and draws a default MRN identifier
`MRN-{uuid[:8]}` when no identifiers are supplied. -/
def create_patient (rng : SeededRandom) (patient_def : PatientDef)
    (patient_id : Option String) : PatientR × SeededRandom :=
  let pr := idOrUuid patient_id rng
  let family :=
    match patient_def.name with
    | some nd => nd.family.getD "Doe"
    | none => "Doe"
  let given :=
    match patient_def.name with
    | some nd => nd.given.getD ["John"]
    | none => ["John"]
  let ir :=
    if patient_def.identifiers = [] then
      let u := pr.2.uuid
      ([("http://hospital.example/mrn", "MRN-" ++ u.1.take 8)], u.2)
    else
      (patient_def.identifiers, pr.2)
  ({ id := pr.1, nameFamily := family, nameGiven := given,
     gender := patient_def.gender.getD "unknown",
     birthDate := patient_def.birthDate, identifiers := ir.1 }, ir.2)

/-- `create_condition`: onset is `now - years_ago*365` when a truthy
`years_ago` is given, else `now - 365`. -/
def create_condition (rng : SeededRandom) (patient_id : String)
    (condition_def : ConditionDef) (patient_ref : Option String)
    (condition_id : Option String) (now : Int) : Resource × SeededRandom :=
  let cr := idOrUuid condition_id rng
  let onset :=
    match condition_def.years_ago with
    | some y => if y ≠ 0 then now - y * 365 else now - 365
    | none => now - 365
  (.condition cr.1 (refOr patient_ref patient_id) condition_def.code onset, cr.2)

/-- `create_observation`: the numeric value is the explicit `value` when the
shape is quantity, otherwise one bounded draw in `[range.min, range.max]`
(defaults 0 and 100); effective time is the supplied schedule timestamp or
`now - randint(1, 30)`; exactly one value shape is populated, selected by
`value_type` (default quantity).  String-typed `value` payloads are outside
this Int-valued projection; the text shape carries the display text. -/
def create_observation (rng : SeededRandom) (patient_id : String)
    (observation_def : ObservationDef) (patient_ref : Option String)
    (observation_id : Option String) (effective_datetime : Option Int)
    (now : Int) : Resource × SeededRandom :=
  let ores := idOrUuid observation_id rng
  let value_type := pyLower (observation_def.value_type.getD "quantity")
  let vr :=
    if observation_def.value.isSome ∧ value_type = "quantity" then
      (observation_def.value.getD 0, ores.2)
    else
      (ores.2).uniformInt (observation_def.rmin.getD 0) (observation_def.rmax.getD 100)
  let unitv :=
    match observation_def.unitName with
    | some u => if u ≠ "" then u else "1"
    | none => "1"
  let er :=
    match effective_datetime with
    | some e => (e, vr.2)
    | none =>
      let dr := (vr.2).randint 1 30
      (now - dr.1, dr.2)
  let v : ObsValue :=
    if value_type = "boolean" ∨ value_type = "flag" then
      .boolean (observation_def.positive.getD true)
    else if value_type = "string" ∨ value_type = "text" then
      .text (observation_def.display.getD "")
    else if value_type = "integer" ∨ value_type = "int" then
      .integer (observation_def.value.getD vr.1)
    else if value_type = "codeableconcept" ∨ value_type = "coded" ∨ value_type = "code" then
      .coded observation_def.codedCode
    else
      .quantity vr.1 unitv
  (.observation ores.1 (refOr patient_ref patient_id) observation_def.loinc er.1 v, er.2)

/-- `create_medication_request`, projected to id, subject and coding; the
date derivations read no randomness. -/
def create_medication_request (rng : SeededRandom) (patient_id : String)
    (medication_def : MedicationDef) (patient_ref : Option String)
    (medication_id : Option String) : Resource × SeededRandom :=
  let mr := idOrUuid medication_id rng
  (.medicationRequest mr.1 (refOr patient_ref patient_id) medication_def.rxnorm, mr.2)

/-- `create_encounter`: `days_ago` defaults to `randint(1, 90)`, duration to
1 hour. -/
def create_encounter (rng : SeededRandom) (patient_id : String)
    (encounter_def : EncounterDef) (patient_ref : Option String)
    (encounter_id : Option String) (now : Int) : Resource × SeededRandom :=
  let er := idOrUuid encounter_id rng
  let dr :=
    match encounter_def.days_ago with
    | some d => (d, er.2)
    | none => (er.2).randint 1 90
  (.encounter er.1 (refOr patient_ref patient_id) (now - dr.1)
    (encounter_def.duration_hours.getD 1), dr.2)

/-- The fixed relationship lookup of `create_related_person`: known
relationship names (lowercased) map to their coded value and canonical
display; unrecognized names pass through uppercased as the code with the
original string as display. -/
def relationshipMapping (rel : String) : String × String :=
  let l := pyLower rel
  if l = "parent" then ("PRN", "parent")
  else if l = "child" then ("CHILD", "child")
  else if l = "spouse" then ("SPS", "spouse")
  else if l = "sibling" then ("SIB", "sibling")
  else if l = "guardian" then ("GUARD", "guardian")
  else if l = "emergency" then ("C", "emergency contact")
  else (pyUpper rel, rel)

/-- `create_related_person`: a missing relationship makes the source crash
(`None` reaches the dict-coding branch), modelled as an error; a string
relationship goes through `relationshipMapping`. -/
def create_related_person (rng : SeededRandom) (patient_id : String)
    (related_person_def : RelatedDef) (patient_ref : Option String)
    (related_person_id : Option String) :
    Except String (RelatedPersonR × SeededRandom) :=
  let rr := idOrUuid related_person_id rng
  let family :=
    match related_person_def.name with
    | some nd => nd.family.getD "Doe"
    | none => "Doe"
  let given :=
    match related_person_def.name with
    | some nd => nd.given.getD ["John"]
    | none => ["John"]
  match related_person_def.relationship with
  | none => .error "AttributeError: relationship is not a string"
  | some rel =>
    let cd := relationshipMapping rel
    let genderv :=
      match related_person_def.gender with
      | some g => if g ≠ "" then some g else none
      | none => none
    .ok ({ id := rr.1, patientRef := refOr patient_ref patient_id,
           active := related_person_def.active.getD true,
           relationshipCode := cd.1, relationshipDisplay := cd.2,
           identifiers := related_person_def.identifiers,
           nameFamily := family, nameGiven := given,
           gender := genderv, birthDate := related_person_def.birthDate }, rr.2)

/-- `create_immunization`: `days_ago` defaults to `randint(30, 365)`; a
truthy `doseNumber` becomes the dose quantity. -/
def create_immunization (rng : SeededRandom) (patient_id : String)
    (immunization_def : ImmunizationDef) (patient_ref : Option String)
    (immunization_id : Option String) (now : Int) : ImmunizationR × SeededRandom :=
  let ir := idOrUuid immunization_id rng
  let dr :=
    match immunization_def.days_ago with
    | some d => (d, ir.2)
    | none => (ir.2).randint 30 365
  let doseQ :=
    match immunization_def.doseNumber with
    | some n => if n ≠ 0 then some n else none
    | none => none
  ({ id := ir.1, patientRef := refOr patient_ref patient_id,
     status := immunization_def.status.getD "completed",
     occurrence := now - dr.1, doseQuantity := doseQ }, dr.2)

/-- `create_diagnostic_report`: issued date from `days_ago` or a
`randint(1, 30)` default; result references as supplied. -/
def create_diagnostic_report (rng : SeededRandom) (patient_id : String)
    (diagnostic_report_def : ReportDef) (observation_refs : List String)
    (patient_ref : Option String) (report_id : Option String) (now : Int) :
    Resource × SeededRandom :=
  let rr := idOrUuid report_id rng
  let dr :=
    match diagnostic_report_def.days_ago with
    | some d => (d, rr.2)
    | none => (rr.2).randint 1 30
  (.diagnosticReport rr.1 (refOr patient_ref patient_id) diagnostic_report_def.code
    (now - dr.1) observation_refs, dr.2)

/-- `create_coverage`: the subscriber defaults to the beneficiary reference. -/
def create_coverage (rng : SeededRandom) (patient_id : String)
    (coverage_def : CoverageDef) (patient_ref : Option String)
    (coverage_id : Option String) : Resource × SeededRandom :=
  let cr := idOrUuid coverage_id rng
  let ben := refOr patient_ref patient_id
  let sub :=
    match coverage_def.subscriber with
    | some s => if s ≠ "" then s else ben
    | none => ben
  (.coverage cr.1 ben sub, cr.2)

/-! ## Rule engine (src/kindling/generator.py, `_apply_rule` and helpers)

Every loop threads the shared `SeededRandom` and the per-rule `urn_mapping`
dict exactly in source order; `now` enters only through the factory calls. -/

/-- The subject reference handed to every factory call:
`urn:uuid:{patient_ref}` for POST, `Patient/{patient_ref}` otherwise. -/
def subjectRefStr (patient_ref : String) (request_method : String) : String :=
  if request_method = "POST" then "urn:uuid:" ++ patient_ref
  else "Patient/" ++ patient_ref

/-- Python `dict.update`: insert every binding of `m'` into `m`. -/
def mapUpdate (m m' : Mapping) : Mapping :=
  m'.foldl (fun acc p => mapInsert acc p.1 p.2) m

/-- Draw a durable id and, for POST, a transport urn recorded in the
mapping; the id/urn draw pattern shared by every action loop. -/
def drawIdAndUrn (rng : SeededRandom) (request_method : String) (m : Mapping) :
    String × Mapping × SeededRandom :=
  let ir := rng.uuid
  if request_method = "POST" then
    let ur := ir.2.uuid
    (ir.1, mapInsert m ir.1 ur.1, ur.2)
  else
    (ir.1, m, ir.2)

def applyConditions (patient : PatientR) (subjRef : String) (request_method : String)
    (now : Int) : List ConditionDef → SeededRandom → Mapping →
      List Resource × Mapping × SeededRandom
  | [], rng, m => ([], m, rng)
  | d :: rest, rng, m =>
    let iu := drawIdAndUrn rng request_method m
    let cr := create_condition iu.2.2 patient.id d (some subjRef) (some iu.1) now
    let res := applyConditions patient subjRef request_method now rest cr.2 iu.2.1
    (cr.1 :: res.1, res.2)

def applyObservationOccs (patient : PatientR) (subjRef : String) (request_method : String)
    (d : ObservationDef) (now : Int) : List Int → SeededRandom → Mapping →
      List Resource × Mapping × SeededRandom
  | [], rng, m => ([], m, rng)
  | when_ :: rest, rng, m =>
    let iu := drawIdAndUrn rng request_method m
    let or_ := create_observation iu.2.2 patient.id d (some subjRef) (some iu.1)
      (some when_) now
    let res := applyObservationOccs patient subjRef request_method d now rest or_.2 iu.2.1
    (or_.1 :: res.1, res.2)

def applyObservations (patient : PatientR) (subjRef : String) (request_method : String)
    (now : Int) : List ObservationDef → SeededRandom → Mapping →
      List Resource × Mapping × SeededRandom
  | [], rng, m => ([], m, rng)
  | d :: rest, rng, m =>
    let tp := generate_time_points rng d.times now
    let occ := applyObservationOccs patient subjRef request_method d now tp.1 tp.2 m
    let res := applyObservations patient subjRef request_method now rest occ.2.2 occ.2.1
    (occ.1 ++ res.1, res.2)

def applyMeds (patient : PatientR) (subjRef : String) (request_method : String) :
    List MedicationDef → SeededRandom → Mapping →
      List Resource × Mapping × SeededRandom
  | [], rng, m => ([], m, rng)
  | d :: rest, rng, m =>
    let iu := drawIdAndUrn rng request_method m
    let mr := create_medication_request iu.2.2 patient.id d (some subjRef) (some iu.1)
    let res := applyMeds patient subjRef request_method rest mr.2 iu.2.1
    (mr.1 :: res.1, res.2)

/-- The fixed inverse-relationship table of
`_create_symmetrical_related_persons`; unknown relationships map to
themselves (after the source's lowercasing). -/
def inverseRelationship (rel : String) : String :=
  if rel = "parent" then "child"
  else if rel = "child" then "parent"
  else if rel = "spouse" then "spouse"
  else if rel = "sibling" then "sibling"
  else if rel = "guardian" then "child"
  else if rel = "emergency" then "emergency"
  else rel

/-- `_create_symmetrical_related_persons`: one new Patient for the related
person, RelatedPerson-A from the new person to the main patient with the
stated relationship and a cross-link identifier to the new patient's id,
and RelatedPerson-B back with the inverse relationship, the main patient's
name, gender and birth date, and a cross-link to the main patient's id. -/
def create_symmetrical_related_persons (rng : SeededRandom) (patient : PatientR)
    (patient_ref : String) (related_def : RelatedDef) (request_method : String)
    (m : Mapping) : Except String (List Resource × Mapping × SeededRandom) :=
  let rpi := rng.uuid
  let related_patient_id := rpi.1
  let rpu :=
    if request_method = "POST" then rpi.2.uuid else (related_patient_id, rpi.2)
  let related_patient_urn := rpu.1
  let m₁ :=
    if request_method = "POST" then mapInsert m related_patient_id related_patient_urn
    else m
  let related_patient_def : PatientDef :=
    { name := related_def.name,
      gender := some (related_def.gender.getD "unknown"),
      birthDate := related_def.birthDate,
      identifiers := related_def.identifiers,
      phone := related_def.phone, email := related_def.email }
  let rp := create_patient rpu.2 related_patient_def (some related_patient_id)
  let related_patient := rp.1
  let p1 := rp.2.uuid
  let related_person1_id := p1.1
  let m₂r :=
    if request_method = "POST" then
      let u := p1.2.uuid
      (mapInsert m₁ related_person1_id u.1, u.2)
    else (m₁, p1.2)
  let original_relationship := pyLower (related_def.relationship.getD "")
  let inverse_rel := inverseRelationship original_relationship
  let related_person1_def : RelatedDef :=
    { name := related_def.name, relationship := related_def.relationship,
      active := some (related_def.active.getD true),
      gender := related_def.gender, birthDate := related_def.birthDate,
      identifiers := [("http://example.org/fhir/related-person-patient",
        related_patient_id)],
      phone := none, email := none }
  match create_related_person m₂r.2 patient.id related_person1_def
      (some (subjectRefStr patient_ref request_method)) (some related_person1_id) with
  | .error e => .error e
  | .ok rp1 =>
    let p2 := rp1.2.uuid
    let related_person2_id := p2.1
    let m₃r :=
      if request_method = "POST" then
        let u := p2.2.uuid
        (mapInsert m₂r.1 related_person2_id u.1, u.2)
      else (m₂r.1, p2.2)
    let patient_name : Option NameDef :=
      some { family := some patient.nameFamily, given := some patient.nameGiven }
    let related_person2_def : RelatedDef :=
      { name := patient_name, relationship := some inverse_rel,
        active := some true, gender := some patient.gender,
        birthDate := patient.birthDate,
        identifiers := [("http://example.org/fhir/related-person-patient", patient.id)],
        phone := none, email := none }
    let rp2ref :=
      if request_method = "POST" then "urn:uuid:" ++ related_patient_urn
      else "Patient/" ++ related_patient_id
    match create_related_person m₃r.2 related_patient_id related_person2_def
        (some rp2ref) (some related_person2_id) with
    | .error e => .error e
    | .ok rp2 =>
      .ok ([.patient related_patient, .relatedPerson rp1.1, .relatedPerson rp2.1],
        m₃r.1, rp2.2)

def applyRelatedPersons (patient : PatientR) (patient_ref : String)
    (request_method : String) : List RelatedDef → SeededRandom → Mapping →
      Except String (List Resource × Mapping × SeededRandom)
  | [], rng, m => .ok ([], m, rng)
  | d :: rest, rng, m =>
    match create_symmetrical_related_persons rng patient patient_ref d request_method m with
    | .error e => .error e
    | .ok out =>
      match applyRelatedPersons patient patient_ref request_method rest out.2.2 out.2.1 with
      | .error e => .error e
      | .ok res => .ok (out.1 ++ res.1, res.2)

def applyReportObs (patient : PatientR) (subjRef : String) (request_method : String)
    (d : ObservationDef) (now : Int) : List Int → SeededRandom → Mapping →
      (List Resource × List String) × Mapping × SeededRandom
  | [], rng, m => (([], []), m, rng)
  | when_ :: rest, rng, m =>
    let oi := rng.uuid
    let obs_id := oi.1
    let step :
        (String × Mapping × SeededRandom) :=
      if request_method = "POST" then
        let u := oi.2.uuid
        ("urn:uuid:" ++ u.1, mapInsert m obs_id u.1, u.2)
      else
        ("Observation/" ++ obs_id, m, oi.2)
    let or_ := create_observation step.2.2 patient.id d (some subjRef) (some obs_id)
      (some when_) now
    let res := applyReportObs patient subjRef request_method d now rest or_.2 step.2.1
    ((or_.1 :: res.1.1, step.1 :: res.1.2), res.2)

def applyReportObsDefs (patient : PatientR) (subjRef : String) (request_method : String)
    (now : Int) : List ObservationDef → SeededRandom → Mapping →
      (List Resource × List String) × Mapping × SeededRandom
  | [], rng, m => (([], []), m, rng)
  | d :: rest, rng, m =>
    let tp := generate_time_points rng d.times now
    let occ := applyReportObs patient subjRef request_method d now tp.1 tp.2 m
    let res := applyReportObsDefs patient subjRef request_method now rest occ.2.2 occ.2.1
    ((occ.1.1 ++ res.1.1, occ.1.2 ++ res.1.2), res.2)

/-- `_create_diagnostic_report_with_observations`. -/
def create_diagnostic_report_with_observations (rng : SeededRandom) (patient : PatientR)
    (patient_ref : String) (report_def : ReportDef) (request_method : String)
    (m : Mapping) (now : Int) : List Resource × Mapping × SeededRandom :=
  let subjRef := subjectRefStr patient_ref request_method
  let obs := applyReportObsDefs patient subjRef request_method now
    report_def.observations rng m
  let iu := drawIdAndUrn obs.2.2 request_method obs.2.1
  let dr := create_diagnostic_report iu.2.2 patient.id report_def obs.1.2
    (some subjRef) (some iu.1) now
  (obs.1.1 ++ [dr.1], iu.2.1, dr.2)

def applyReports (patient : PatientR) (patient_ref : String) (request_method : String)
    (now : Int) : List ReportDef → SeededRandom → Mapping →
      List Resource × Mapping × SeededRandom
  | [], rng, m => ([], m, rng)
  | d :: rest, rng, m =>
    let out := create_diagnostic_report_with_observations rng patient patient_ref d
      request_method m now
    let res := applyReports patient patient_ref request_method now rest out.2.2 out.2.1
    (out.1 ++ res.1, res.2)

/-- The dose loop of the immunization action: dose index `i` of `qty`; when
`qty > 1` and `days_ago` is present the copied definition gets
`days_ago - i*30` and `doseNumber = i + 1`, otherwise the definition is used
unchanged.  The first argument counts the remaining doses. -/
def applyImmunizationDoses (patient : PatientR) (subjRef : String)
    (request_method : String) (d : ImmunizationDef) (qty : Int) (now : Int) :
    Nat → Int → SeededRandom → Mapping → List Resource × Mapping × SeededRandom
  | 0, _, rng, m => ([], m, rng)
  | k + 1, i, rng, m =>
    let iu := drawIdAndUrn rng request_method m
    let adjusted : ImmunizationDef :=
      if qty > 1 ∧ d.days_ago.isSome then
        { d with days_ago := some (d.days_ago.getD 0 - i * 30),
                 doseNumber := some (i + 1) }
      else d
    let ir := create_immunization iu.2.2 patient.id adjusted (some subjRef)
      (some iu.1) now
    let res := applyImmunizationDoses patient subjRef request_method d qty now k
      (i + 1) ir.2 iu.2.1
    (.immunization ir.1 :: res.1, res.2)

def applyImmunizations (patient : PatientR) (subjRef : String)
    (request_method : String) (now : Int) : List ImmunizationDef → SeededRandom →
      Mapping → List Resource × Mapping × SeededRandom
  | [], rng, m => ([], m, rng)
  | d :: rest, rng, m =>
    let qty := d.qty.getD 1
    let doses := applyImmunizationDoses patient subjRef request_method d qty now
      qty.toNat 0 rng m
    let res := applyImmunizations patient subjRef request_method now rest doses.2.2
      doses.2.1
    (doses.1 ++ res.1, res.2)

def applyCoverage (patient : PatientR) (subjRef : String) (request_method : String) :
    List CoverageDef → SeededRandom → Mapping →
      List Resource × Mapping × SeededRandom
  | [], rng, m => ([], m, rng)
  | d :: rest, rng, m =>
    let iu := drawIdAndUrn rng request_method m
    let cr := create_coverage iu.2.2 patient.id d (some subjRef) (some iu.1)
    let res := applyCoverage patient subjRef request_method rest cr.2 iu.2.1
    (cr.1 :: res.1, res.2)

/-- The repetition loop of the encounter action: when `qty > 1` and
`spread_months > 0`, occurrence `i` gets
`days_ago = base + i * ((spread_months*30) // qty)`. -/
def applyEncounterReps (patient : PatientR) (subjRef : String)
    (request_method : String) (d : EncounterDef) (qty spread_months : Int)
    (now : Int) : Nat → Int → SeededRandom → Mapping →
      List Resource × Mapping × SeededRandom
  | 0, _, rng, m => ([], m, rng)
  | k + 1, i, rng, m =>
    let iu := drawIdAndUrn rng request_method m
    let adjusted : EncounterDef :=
      if qty > 1 ∧ spread_months > 0 then
        { d with days_ago := some (d.days_ago.getD 0 +
            i * ((spread_months * 30).fdiv qty)) }
      else d
    let er := create_encounter iu.2.2 patient.id adjusted (some subjRef)
      (some iu.1) now
    let res := applyEncounterReps patient subjRef request_method d qty spread_months
      now k (i + 1) er.2 iu.2.1
    (er.1 :: res.1, res.2)

def applyEncounters (patient : PatientR) (subjRef : String)
    (request_method : String) (now : Int) : List EncounterDef → SeededRandom →
      Mapping → List Resource × Mapping × SeededRandom
  | [], rng, m => ([], m, rng)
  | d :: rest, rng, m =>
    let qty := d.qty.getD 1
    let spread := d.spread_months.getD 12
    let reps := applyEncounterReps patient subjRef request_method d qty spread now
      qty.toNat 0 rng m
    let res := applyEncounters patient subjRef request_method now rest reps.2.2 reps.2.1
    (reps.1 ++ res.1, res.2)

/-- The `then` clause of a rule: one action list per record kind, in the
order `_apply_rule` iterates them. -/
structure ThenActions where
  add_conditions : List ConditionDef
  add_observations : List ObservationDef
  meds : List MedicationDef
  related_persons : List RelatedDef
  diagnostic_reports : List ReportDef
  immunizations : List ImmunizationDef
  coverage : List CoverageDef
  encounters : List EncounterDef

structure Rule where
  whenCondition : String
  act : ThenActions

/-- `_apply_rule`: expand every action category of a matching rule, in
source order, threading the shared random source and the rule-local urn
mapping. -/
def apply_rule (rng : SeededRandom) (rule : Rule) (patient : PatientR)
    (patient_ref : String) (request_method : String) (now : Int) :
    Except String (List Resource × Mapping × SeededRandom) :=
  let subjRef := subjectRefStr patient_ref request_method
  let c := applyConditions patient subjRef request_method now
    rule.act.add_conditions rng []
  let o := applyObservations patient subjRef request_method now
    rule.act.add_observations c.2.2 c.2.1
  let md := applyMeds patient subjRef request_method rule.act.meds o.2.2 o.2.1
  match applyRelatedPersons patient patient_ref request_method
      rule.act.related_persons md.2.2 md.2.1 with
  | .error e => .error e
  | .ok rel =>
    let rep := applyReports patient patient_ref request_method now
      rule.act.diagnostic_reports rel.2.2 rel.2.1
    let im := applyImmunizations patient subjRef request_method now
      rule.act.immunizations rep.2.2 rep.2.1
    let cov := applyCoverage patient subjRef request_method
      rule.act.coverage im.2.2 im.2.1
    let en := applyEncounters patient subjRef request_method now
      rule.act.encounters cov.2.2 cov.2.1
    .ok (c.1 ++ o.1 ++ md.1 ++ rel.1 ++ rep.1 ++ im.1 ++ cov.1 ++ en.1,
      en.2.1, en.2.2)

/-! ## Generator orchestration (src/kindling/generator.py, `generate`) -/

def maleNames : List String :=
  ["John", "David", "Michael", "Robert", "William",
   "James", "Joseph", "Charles", "Thomas", "Christopher"]

def femaleNames : List String :=
  ["Mary", "Linda", "Sarah", "Emma", "Jennifer",
   "Patricia", "Elizabeth", "Susan", "Jessica", "Margaret"]

def familyNames : List String :=
  ["Smith", "Johnson", "Brown", "Jones", "Miller",
   "Davis", "Garcia", "Rodriguez", "Wilson", "Martinez"]

structure DemoConfig where
  ageMin : Option Int
  ageMax : Option Int
  genderDist : List (String × Nat)

structure Demographics where
  age : Int
  gender : String
  birthDate : Int
  nameGiven : List String
  nameFamily : String

/-- `_generate_demographics`: age draw within the configured (default
18-90) range, gender by weighted or uniform draw, names by uniform draws,
birth date `now - age*365`. -/
def generate_demographics (rng : SeededRandom) (demo : DemoConfig) (now : Int) :
    Demographics × SeededRandom :=
  let ar := rng.randint (demo.ageMin.getD 18) (demo.ageMax.getD 90)
  let gr :=
    if demo.genderDist ≠ [] then ar.2.weightedChoice demo.genderDist
    else ar.2.choice ["male", "female"]
  let birthDate := now - ar.1 * 365
  let nr :=
    if gr.1 = "female" then gr.2.choice femaleNames else gr.2.choice maleNames
  let fr := nr.2.choice familyNames
  ({ age := ar.1, gender := gr.1, birthDate := birthDate,
     nameGiven := [nr.1], nameFamily := fr.1 }, fr.2)

/-- The demographics dict handed to `create_patient` in cohort mode. -/
def demographicsToPatientDef (d : Demographics) : PatientDef :=
  { name := some { family := some d.nameFamily, given := some d.nameGiven },
    gender := some d.gender, birthDate := some d.birthDate,
    identifiers := [], phone := none, email := none }

structure Profile where
  mode : Option String
  single_patient : PatientDef
  demographics : DemoConfig
  rules : List Rule

/-- `resource.__class__.__name__`-based allow-list filter
(`_filter_resources`): keep records of listed kinds; if anything survived
but no Patient did, re-insert the first Patient of the original list at the
front. -/
def filter_resources (resource_filter : List String) (resources : List Resource) :
    List Resource :=
  if resource_filter = [] then resources
  else
    let filtered := resources.filter (fun r => resource_filter.contains r.rtype)
    if !filtered.isEmpty && !(filtered.any (fun r => r.rtype == "Patient")) then
      match resources.find? (fun r => r.rtype == "Patient") with
      | some p => p :: filtered
      | none => filtered
    else filtered

def rulesLoopSingle (patient : PatientR) (patient_ref : String)
    (request_method : String) (now : Int) : List Rule → SeededRandom → Mapping →
      Except String (List Resource × Mapping × SeededRandom)
  | [], rng, m => .ok ([], m, rng)
  | rule :: rest, rng, m =>
    match apply_rule rng rule patient patient_ref request_method now with
    | .error e => .error e
    | .ok out =>
      match rulesLoopSingle patient patient_ref request_method now rest out.2.2
          (mapUpdate m out.2.1) with
      | .error e => .error e
      | .ok res => .ok (out.1 ++ res.1, res.2)

def rulesLoopCohort (patient : PatientR) (patient_ref : String)
    (request_method : String) (now : Int) (demo : Demographics) :
    List Rule → SeededRandom → Mapping →
      Except String (List Resource × Mapping × SeededRandom)
  | [], rng, m => .ok ([], m, rng)
  | rule :: rest, rng, m =>
    match evaluate_rule_condition rule.whenCondition (some demo.age) with
    | .error e => .error e
    | .ok true =>
      match apply_rule rng rule patient patient_ref request_method now with
      | .error e => .error e
      | .ok out =>
        match rulesLoopCohort patient patient_ref request_method now demo rest
            out.2.2 (mapUpdate m out.2.1) with
        | .error e => .error e
        | .ok res => .ok (out.1 ++ res.1, res.2)
    | .ok false =>
      rulesLoopCohort patient patient_ref request_method now demo rest rng m

/-- `_generate_single_patient`: id and urn draws, patient construction from
the profile's single-patient definition, unconditional rule application,
then the optional kind filter. -/
def generate_single_patient (rng : SeededRandom) (profile : Profile)
    (request_method : String) (resource_filter : List String) (now : Int) :
    Except String (List Resource × Mapping × SeededRandom) :=
  let pi := rng.uuid
  let patient_id := pi.1
  let pu := if request_method = "POST" then pi.2.uuid else (patient_id, pi.2)
  let patient_urn := pu.1
  let m₀ : Mapping :=
    if request_method = "POST" then [(patient_id, patient_urn)] else []
  let pr := create_patient pu.2 profile.single_patient (some patient_id)
  let patient := pr.1
  let pref := if request_method = "POST" then patient_urn else patient_id
  match rulesLoopSingle patient pref request_method now profile.rules pr.2 m₀ with
  | .error e => .error e
  | .ok out =>
    let resources := Resource.patient patient :: out.1
    let resources' :=
      if resource_filter ≠ [] then filter_resources resource_filter resources
      else resources
    .ok (resources', out.2.1, out.2.2)

/-- `_generate_patient` (cohort): demographics, id and urn draws, patient
construction, condition-gated rule application, then the optional filter. -/
def generate_patient (rng : SeededRandom) (profile : Profile)
    (request_method : String) (resource_filter : List String) (now : Int) :
    Except String (List Resource × Mapping × SeededRandom) :=
  let dg := generate_demographics rng profile.demographics now
  let pi := dg.2.uuid
  let patient_id := pi.1
  let pu := if request_method = "POST" then pi.2.uuid else (patient_id, pi.2)
  let patient_urn := pu.1
  let m₀ : Mapping :=
    if request_method = "POST" then [(patient_id, patient_urn)] else []
  let pr := create_patient pu.2 (demographicsToPatientDef dg.1) (some patient_id)
  let patient := pr.1
  let pref := if request_method = "POST" then patient_urn else patient_id
  match rulesLoopCohort patient pref request_method now dg.1 profile.rules pr.2 m₀ with
  | .error e => .error e
  | .ok out =>
    let resources := Resource.patient patient :: out.1
    let resources' :=
      if resource_filter ≠ [] then filter_resources resource_filter resources
      else resources
    .ok (resources', out.2.1, out.2.2)

def cohortLoop (profile : Profile) (request_method : String)
    (resource_filter : List String) (now : Int) :
    Nat → SeededRandom → Except String (List Resource × Mapping × SeededRandom)
  | 0, rng => .ok ([], [], rng)
  | k + 1, rng =>
    match generate_patient rng profile request_method resource_filter now with
    | .error e => .error e
    | .ok out =>
      match cohortLoop profile request_method resource_filter now k out.2.2 with
      | .error e => .error e
      | .ok res => .ok (out.1 ++ res.1, mapUpdate out.2.1 res.2.1, res.2.2)

/-- `generate`, at the level of container contents: single mode produces one
container with the single patient's records; cohort mode concatenates
`count` patients' records and mappings and chunks them into containers of at
most `bundle_size` (at least one container).  Returns the container record
lists and the final merged identity map. -/
def generate (profile : Profile) (count : Nat) (bundle_size : Nat)
    (request_method : String) (resource_filter : List String)
    (rng : SeededRandom) (now : Int) :
    Except String (List (List Resource) × Mapping × SeededRandom) :=
  if profile.mode.getD "cohort" = "single" then
    match generate_single_patient rng profile request_method resource_filter now with
    | .error e => .error e
    | .ok out => .ok ([out.1], out.2.1, out.2.2)
  else
    match cohortLoop profile request_method resource_filter now count rng with
    | .error e => .error e
    | .ok out =>
      let chunks := chunkList bundle_size out.1
      let containers := if chunks.isEmpty then [[]] else chunks
      .ok (containers, out.2.1, out.2.2)

/-! ## Time-field erasure, for the determinism statement

Two runs of `generate` with the same seed but different wall clocks agree on
everything except the "now"-derived timestamp fields; the erasure operators
below blank exactly those fields. -/

def PatientR.erase (p : PatientR) : PatientR := { p with birthDate := none }

def Demographics.erase (d : Demographics) : Demographics := { d with birthDate := 0 }

/-- Erase the "now"-derived parts of an action-loop output triple. -/
def eraseOut3 (out : List Resource × Mapping × SeededRandom) :
    List Resource × Mapping × SeededRandom :=
  (out.1.map Resource.timeErase, out.2.1, out.2.2)

/-- The identifier content of a `generate` output: per container, each
record's durable id paired with its transport id from the final identity
map, plus the map itself. -/
def genProj (out : List (List Resource) × Mapping × SeededRandom) :
    List (List (String × Option String)) × Mapping :=
  (out.1.map (fun c => c.map (fun r => (r.rid, mget out.2.1 r.rid))), out.2.1)

/-- Projection of an immunization record to (occurrence, dose quantity). -/
def immProj : Resource → Option (Int × Option Int)
  | .immunization im => some (im.occurrence, im.doseQuantity)
  | _ => none

/-- A concrete patient used in witnesses and counterexamples. -/
def samplePatient : PatientR :=
  { id := "pat-1", nameFamily := "Smith", nameGiven := ["John"],
    gender := "male", birthDate := none, identifiers := [("sys", "v")] }

/-- A concrete related-person action definition used in witnesses. -/
def sampleRelatedDef : RelatedDef :=
  { name := none, relationship := some "parent", active := none, gender := none,
    birthDate := none, identifiers := [], phone := none, email := none }

/-- A concrete resource used in witnesses and counterexamples. -/
def sampleBRes : BRes :=
  { id := some "res-1", resourceType := "Patient", identifiers := [],
    content := RData.dict [] }

def exceptIsOk {α : Type} : Except String α → Bool
  | .ok _ => true
  | .error _ => false

/-! ## Theorems -/

theorem mget_append (l₁ l₂ : Mapping) (k : String) :
    mget (l₁ ++ l₂) k = ((mget l₁ k).or (mget l₂ k)) := by
  induction l₁ with
  | nil => simp [mget]
  | cons p rest ih =>
    obtain ⟨a, b⟩ := p
    by_cases hak : a = k
    · simp [mget, hak]
    · simp [mget, hak, ih]

theorem mget_map_overwrite_ne (m : Mapping) (k v k' : String) (hk : k' ≠ k) :
    mget (m.map (fun p => if p.1 = k then (k, v) else p)) k' = mget m k' := by
  induction m with
  | nil => simp [mget]
  | cons p rest ih =>
    obtain ⟨a, b⟩ := p
    simp only [List.map_cons]
    by_cases hak : a = k
    · rw [if_pos hak]
      have h1 : ¬(k = k') := fun h => hk h.symm
      have h2 : ¬(a = k') := fun h => h1 (hak ▸ h)
      simp only [mget, if_neg h1, if_neg h2]
      exact ih
    · rw [if_neg hak]
      simp only [mget]
      by_cases hak' : a = k'
      · rw [if_pos hak', if_pos hak']
      · rw [if_neg hak', if_neg hak']
        exact ih

theorem mget_map_overwrite_eq (m : Mapping) (k v : String)
    (h : (mget m k).isSome) :
    mget (m.map (fun p => if p.1 = k then (k, v) else p)) k = some v := by
  induction m with
  | nil => simp [mget] at h
  | cons p rest ih =>
    obtain ⟨a, b⟩ := p
    simp only [List.map_cons]
    by_cases hak : a = k
    · rw [if_pos hak]
      simp [mget]
    · rw [if_neg hak]
      simp only [mget, if_neg hak]
      apply ih
      simpa [mget, hak] using h

/-- Characterization of Python dict assignment: looking up `k'` after
`m[k] = v` gives `v` at `k` and the old binding elsewhere. -/
theorem mget_mapInsert (m : Mapping) (k v k' : String) :
    mget (mapInsert m k v) k' = if k' = k then some v else mget m k' := by
  unfold mapInsert
  by_cases hs : (mget m k).isSome
  · simp only [hs, if_true]
    by_cases hk : k' = k
    · subst hk
      rw [mget_map_overwrite_eq m k' v hs, if_pos rfl]
    · rw [mget_map_overwrite_ne m k v k' hk, if_neg hk]
  · simp only [hs, Bool.false_eq_true, if_false]
    rw [mget_append]
    by_cases hk : k' = k
    · subst hk
      have hnone : mget m k' = none := by
        cases h : mget m k' with
        | none => rfl
        | some x => rw [h] at hs; simp at hs
      simp [hnone, mget]
    · have h2 : ¬(k = k') := fun h => hk h.symm
      simp only [mget, if_neg h2, if_neg hk]
      cases mget m k' <;> simp [Option.or]

theorem mget_mapInsert_isSome (m : Mapping) (k v k' : String)
    (h : (mget m k').isSome) : (mget (mapInsert m k v) k').isSome := by
  rw [mget_mapInsert]
  by_cases hk : k' = k
  · simp [hk]
  · simpa [hk] using h

theorem strStartsWith_append (p u : String) :
    strStartsWith (p ++ u) p = true := by
  unfold strStartsWith
  rw [String.data_append]
  exact List.isPrefixOf_iff_prefix.mpr (List.prefix_append _ _)

/-- One application of the per-string reference rewrite is a fixed point of a
second application: a rewritten reference starts with `urn:uuid:` and is
skipped, an untouched reference is untouched again. -/
theorem rewriteRef_idem (m : Mapping) (s : String) :
    rewriteRef m (rewriteRef m s) = rewriteRef m s := by
  unfold rewriteRef
  by_cases h : strStartsWith s "urn:uuid:" = true
  · simp [h]
  · simp only [h, Bool.false_eq_true, if_false]
    cases hsp : s.splitOn "/" with
    | nil => simp [h, hsp]
    | cons a tl =>
      cases tl with
      | nil => simp [h, hsp]
      | cons b tl2 =>
        cases tl2 with
        | nil =>
          cases hm : mget m b with
          | none => simp [h, hsp, hm]
          | some urn => simp [hm, strStartsWith_append]
        | cons c tl3 => simp [h, hsp]

theorem update_references_idem_mutual (m : Mapping) :
    ∀ d : RData,
      update_references m (update_references m d) = update_references m d := by
  refine update_references.induct m
    (fun d => update_references m (update_references m d) = update_references m d)
    (fun b fs => updateRefsFields m b (updateRefsFields m b fs) = updateRefsFields m b fs)
    (fun xs => updateRefsList m (updateRefsList m xs) = updateRefsList m xs)
    ?_ ?_ ?_ ?_ ?_ ?_ ?_ ?_ ?_ ?_ ?_ ?_
  · intro s; simp [update_references]
  · intro n; simp [update_references]
  · simp [update_references]
  · intro xs ih
    simp only [update_references]
    rw [ih]
  · intro fs ih
    simp only [update_references]
    rw [ih]
  · simp [updateRefsList]
  · intro x xs ih ihs
    simp only [updateRefsList]
    rw [ih, ihs]
  · intro b; cases b <;> simp [updateRefsFields]
  · intro pending k s fs hcond ih
    simp only [updateRefsFields, hcond, if_true]
    rw [rewriteRef_idem, ih]
  · intro pending k s fs hcond ih
    simp [updateRefsFields, hcond, ih]
  · intro pending k v fs hnotstr hcond ihv ih
    cases v with
    | str s => exact absurd rfl (hnotstr s)
    | num n => simp [updateRefsFields, hcond, update_references, ih]
    | null => simp [updateRefsFields, hcond, update_references, ih]
    | arr xs =>
      simp only [updateRefsFields, hcond, if_true, update_references] at ihv ⊢
      rw [ihv, ih]
    | dict gs =>
      simp only [updateRefsFields, hcond, if_true, update_references] at ihv ⊢
      rw [ihv, ih]
  · intro pending k v fs hnotstr hcond ihv ih
    have hcond' : (pending && (k == "reference")) = false := by
      simpa using hcond
    cases v with
    | str s => exact absurd rfl (hnotstr s)
    | num n => simp [updateRefsFields, hcond', update_references, ih]
    | null => simp [updateRefsFields, hcond', update_references, ih]
    | arr xs =>
      simp only [updateRefsFields, hcond', Bool.false_eq_true, if_false,
        update_references] at ihv ⊢
      rw [ihv, ih]
    | dict gs =>
      simp only [updateRefsFields, hcond', Bool.false_eq_true, if_false,
        update_references] at ihv ⊢
      rw [ihv, ih]

theorem entriesLoop_length (bundle_type request_method : String) (fresh : Nat → String) :
    ∀ (rs : List BRes) (m : Mapping) (i : Nat),
      (entriesLoop bundle_type request_method fresh rs m i).1.length = rs.length := by
  intro rs
  induction rs with
  | nil => intro m i; simp [entriesLoop]
  | cons r rest ih =>
    intro m i
    simp only [entriesLoop, List.length_cons]
    rw [ih]

theorem create_bundle_ok (resources : List BRes) (bundle_type request_method : String)
    (urn_mapping : Mapping) (fresh : Nat → String)
    (hbt : bundle_type = "transaction" ∨ bundle_type = "collection")
    (hm : bundle_type = "transaction" →
      request_method = "POST" ∨ request_method = "PUT" ∨ request_method = "CONDITIONAL") :
    create_bundle resources bundle_type request_method urn_mapping fresh =
      .ok (entriesLoop bundle_type request_method fresh resources urn_mapping 0).1 := by
  unfold create_bundle
  rcases hbt with hbt | hbt
  · subst hbt
    rcases hm rfl with hm' | hm' | hm' <;> subst hm' <;> simp
  · subst hbt
    simp

theorem chunkList_ne_nil (size : Nat) (xs : List BRes) (hs : size ≠ 0) (hx : xs ≠ []) :
    chunkList size xs ≠ [] := by
  have hcond : ¬(xs.isEmpty = true ∨ size = 0) := by
    push_neg
    exact ⟨by simpa [List.isEmpty_iff] using hx, hs⟩
  rw [chunkList, dif_neg hcond]
  simp

theorem chunkList_nil (size : Nat) : chunkList size ([] : List BRes) = [] := by
  rw [chunkList]
  simp

theorem chunkList_length_eq (size : Nat) (hs : 0 < size) :
    ∀ (xs : List BRes), xs ≠ [] →
      (chunkList size xs).length = (xs.length + size - 1) / size := by
  intro xs
  induction xs using chunkList.induct size with
  | case1 xs h =>
    intro hx
    rcases h with h | h
    · exact absurd (by simpa [List.isEmpty_iff] using h) hx
    · omega
  | case2 xs h ih =>
    intro hx
    rw [chunkList, dif_neg h]
    simp only [List.length_cons]
    by_cases hd : xs.drop size = []
    · rw [hd]
      have hlen : xs.length ≤ size := by
        have := List.drop_eq_nil_iff.mp hd
        omega
      have hpos : 0 < xs.length := List.length_pos.mpr hx
      rw [chunkList_nil]
      have e : xs.length + size - 1 = (xs.length - 1) + size := by omega
      rw [e, Nat.add_div_right _ hs, Nat.div_eq_of_lt (by omega)]
      simp
    · have hdp : 0 < (xs.drop size).length := List.length_pos.mpr hd
      have hda : (xs.drop size).length = xs.length - size := List.length_drop size xs
      have hlen : size < xs.length := by omega
      rw [ih hd, hda]
      have e1 : xs.length - size + size - 1 = xs.length - 1 := by omega
      have e2 : xs.length + size - 1 = (xs.length - 1) + size := by omega
      rw [e1, e2, Nat.add_div_right _ hs]

theorem chunkList_mem_length_le (size : Nat) :
    ∀ (xs : List BRes), ∀ c ∈ chunkList size xs, c.length ≤ size := by
  intro xs
  induction xs using chunkList.induct size with
  | case1 xs h =>
    rw [chunkList, dif_pos h]
    intro c hc
    simp at hc
  | case2 xs h ih =>
    rw [chunkList, dif_neg h]
    intro c hc
    rcases List.mem_cons.mp hc with hc | hc
    · subst hc
      simp [List.length_take]
    · exact ih c hc

theorem chunkList_mem_ne_nil (size : Nat) (hs : 0 < size) :
    ∀ (xs : List BRes), ∀ c ∈ chunkList size xs, c ≠ [] := by
  intro xs
  induction xs using chunkList.induct size with
  | case1 xs h =>
    rw [chunkList, dif_pos h]
    intro c hc
    simp at hc
  | case2 xs h ih =>
    rw [chunkList, dif_neg h]
    intro c hc
    rcases List.mem_cons.mp hc with hc | hc
    · subst hc
      push_neg at h
      have hx : xs ≠ [] := by simpa [List.isEmpty_iff] using h.1
      have hpos : 0 < xs.length := List.length_pos.mpr hx
      have hlt : 0 < (xs.take size).length := by
        rw [List.length_take]
        omega
      exact List.length_pos.mp hlt
    · exact ih c hc

theorem getLast?_cons_of_ne_nil {α : Type} (a : α) (l : List α) (h : l ≠ []) :
    (a :: l).getLast? = l.getLast? := by
  cases l with
  | nil => exact absurd rfl h
  | cons b t => simp [List.getLast?_cons_cons]

theorem chunkList_getLast (size : Nat) (hs : 0 < size) :
    ∀ (xs : List BRes), xs ≠ [] → xs.length % size ≠ 0 →
      ∃ c, (chunkList size xs).getLast? = some c ∧ c.length = xs.length % size := by
  intro xs
  induction xs using chunkList.induct size with
  | case1 xs h =>
    intro hx _
    rcases h with h | h
    · exact absurd (by simpa [List.isEmpty_iff] using h) hx
    · omega
  | case2 xs h ih =>
    intro hx hmod
    rw [chunkList, dif_neg h]
    by_cases hd : xs.drop size = []
    · have hlen : xs.length ≤ size := by
        have := List.drop_eq_nil_iff.mp hd
        omega
      have hlt : xs.length < size := by
        rcases Nat.lt_or_ge xs.length size with hl | hl
        · exact hl
        · have he : xs.length = size := by omega
          rw [he] at hmod
          simp at hmod
      rw [hd, chunkList_nil]
      refine ⟨xs.take size, by simp, ?_⟩
      rw [List.take_of_length_le hlen, Nat.mod_eq_of_lt hlt]
    · have hdp : 0 < (xs.drop size).length := List.length_pos.mpr hd
      have hda : (xs.drop size).length = xs.length - size := List.length_drop size xs
      have hlen : size < xs.length := by omega
      have hmod' : (xs.drop size).length % size ≠ 0 := by
        rw [hda, ← Nat.mod_eq_sub_mod (by omega)]
        exact hmod
      obtain ⟨c, hc1, hc2⟩ := ih hd hmod'
      refine ⟨c, ?_, ?_⟩
      · rw [getLast?_cons_of_ne_nil _ _ (chunkList_ne_nil size _ (by omega) hd)]
        exact hc1
      · rw [hc2, hda, ← Nat.mod_eq_sub_mod (by omega)]

theorem bundlesLoop_ok (bundle_type request_method : String) (urn_mapping : Mapping)
    (fresh : Nat → String)
    (hbt : bundle_type = "transaction" ∨ bundle_type = "collection")
    (hm : bundle_type = "transaction" →
      request_method = "POST" ∨ request_method = "PUT" ∨ request_method = "CONDITIONAL") :
    ∀ cs : List (List BRes),
      ∃ bs, bundlesLoop bundle_type request_method urn_mapping fresh cs = .ok bs ∧
        bs.map List.length = cs.map List.length := by
  intro cs
  induction cs with
  | nil => exact ⟨[], rfl, rfl⟩
  | cons c rest ih =>
    obtain ⟨bs, hbs, hlen⟩ := ih
    refine ⟨(entriesLoop bundle_type request_method fresh c urn_mapping 0).1 :: bs, ?_, ?_⟩
    · simp only [bundlesLoop]
      rw [create_bundle_ok c bundle_type request_method urn_mapping fresh hbt hm, hbs]
    · simp only [List.map_cons]
      rw [hlen, entriesLoop_length]

/-- C1: Bundle size law.  For every record list, positive bundle size `N`,
valid bundle type and request method, `create_bundles` returns exactly
`max(ceil(len/N), 1)` containers; every container has at most `N` entries;
all containers are non-empty when there are records (so the last container
is the last non-empty one) and the last container has `len mod N` entries
when that is nonzero; an empty record list yields exactly one container with
zero entries. -/
theorem create_bundles_size_law (resources : List BRes) (bundle_type request_method : String)
    (N : Nat) (urn_mapping : Mapping) (fresh : Nat → String)
    (hN : 0 < N)
    (hbt : bundle_type = "transaction" ∨ bundle_type = "collection")
    (hm : bundle_type = "transaction" →
      request_method = "POST" ∨ request_method = "PUT" ∨ request_method = "CONDITIONAL") :
    ∃ bs, create_bundles resources bundle_type N request_method urn_mapping fresh = .ok bs ∧
      bs.length = max ((resources.length + N - 1) / N) 1 ∧
      (∀ b ∈ bs, b.length ≤ N) ∧
      (resources ≠ [] → ∀ b ∈ bs, b ≠ []) ∧
      (resources.length % N ≠ 0 →
        ∃ lastb, bs.getLast? = some lastb ∧ lastb.length = resources.length % N) ∧
      (resources = [] → bs.length = 1 ∧ ∀ b ∈ bs, b.length = 0) := by
  by_cases hres : resources = []
  · subst hres
    have h1 : create_bundle ([] : List BRes) bundle_type request_method urn_mapping fresh =
        .ok [] := by
      rw [create_bundle_ok [] bundle_type request_method urn_mapping fresh hbt hm]
      simp [entriesLoop]
    refine ⟨[[]], ?_, ?_, ?_, ?_, ?_, ?_⟩
    · unfold create_bundles
      rw [chunkList_nil]
      simp [bundlesLoop, h1]
    · have hdiv : (N - 1) / N = 0 := Nat.div_eq_of_lt (by omega)
      simp only [List.length_nil, List.length_cons, Nat.zero_add, hdiv]
      simp
    · intro b hb
      simp at hb
      simp [hb]
    · intro h
      exact absurd rfl h
    · intro h
      simp at h
    · intro _
      refine ⟨rfl, ?_⟩
      intro b hb
      simp at hb
      simp [hb]
  · obtain ⟨bs, hloop, hmapLen⟩ :=
      bundlesLoop_ok bundle_type request_method urn_mapping fresh hbt hm
        (chunkList N resources)
    have hchunks_ne : chunkList N resources ≠ [] :=
      chunkList_ne_nil N resources (by omega) hres
    have hbs_ne : bs ≠ [] := by
      intro h
      subst h
      rw [List.map_nil] at hmapLen
      exact hchunks_ne (List.map_eq_nil.mp hmapLen.symm)
    refine ⟨bs, ?_, ?_, ?_, ?_, ?_, ?_⟩
    · unfold create_bundles
      rw [hloop]
      have : bs.isEmpty = false := by
        simpa [List.isEmpty_iff] using hbs_ne
      simp [this]
    · have hlen1 : bs.length = (chunkList N resources).length := by
        have := congrArg List.length hmapLen
        simpa using this
      rw [hlen1, chunkList_length_eq N hN resources hres]
      have hL : 0 < resources.length := List.length_pos.mpr hres
      have hone : 1 ≤ (resources.length + N - 1) / N := by
        rw [Nat.one_le_div_iff hN]
        omega
      exact (Nat.max_eq_left hone).symm
    · intro b hb
      have hmem : b.length ∈ (chunkList N resources).map List.length := by
        rw [← hmapLen]
        exact List.mem_map_of_mem _ hb
      obtain ⟨c, hc, hcl⟩ := List.mem_map.mp hmem
      rw [← hcl]
      exact chunkList_mem_length_le N resources c hc
    · intro _ b hb
      have hmem : b.length ∈ (chunkList N resources).map List.length := by
        rw [← hmapLen]
        exact List.mem_map_of_mem _ hb
      obtain ⟨c, hc, hcl⟩ := List.mem_map.mp hmem
      have hcne := chunkList_mem_ne_nil N hN resources c hc
      intro hbnil
      subst hbnil
      rw [List.length_nil] at hcl
      exact hcne (List.length_eq_zero.mp hcl)
    · intro hmod
      obtain ⟨c, hc1, hc2⟩ := chunkList_getLast N hN resources hres hmod
      have hgl : (bs.map List.length).getLast? =
          ((chunkList N resources).map List.length).getLast? := by
        rw [hmapLen]
      rw [List.getLast?_map, List.getLast?_map, hc1] at hgl
      obtain ⟨lb, hlb⟩ := Option.isSome_iff_exists.mp (List.getLast?_isSome.mpr hbs_ne)
      refine ⟨lb, hlb, ?_⟩
      rw [hlb] at hgl
      simp at hgl
      rw [hgl, hc2]
    · intro h
      exact absurd h hres

/-- Witness for the bundle size law at the spec scenario: 25 records with
bundle size 10 give containers sized 10, 10, 5. -/
theorem create_bundles_size_law_witness :
    (0 < 10) ∧
    (∃ bs, create_bundles (List.replicate 25 sampleBRes) "transaction" 10 "POST" []
        (fun _ => "f") = .ok bs ∧
      bs.length = max (((List.replicate 25 sampleBRes).length + 10 - 1) / 10) 1 ∧
      (∀ b ∈ bs, b.length ≤ 10) ∧
      (List.replicate 25 sampleBRes ≠ [] → ∀ b ∈ bs, b ≠ []) ∧
      ((List.replicate 25 sampleBRes).length % 10 ≠ 0 →
        ∃ lastb, bs.getLast? = some lastb ∧
          lastb.length = (List.replicate 25 sampleBRes).length % 10) ∧
      (List.replicate 25 sampleBRes = [] → bs.length = 1 ∧ ∀ b ∈ bs, b.length = 0)) :=
  ⟨by decide,
   create_bundles_size_law (List.replicate 25 sampleBRes) "transaction" "POST" 10 []
     (fun _ => "f") (by decide) (Or.inl rfl) (fun _ => Or.inl rfl)⟩

/-- C8 counterexample: a collection bundle assembled with the unrecognized
request method "DELETE" is not rejected — `create_bundle` succeeds, because
the request-method validation only runs for transaction bundles. -/
theorem create_bundle_unvalidated_method_counterexample :
    exceptIsOk (create_bundle [sampleBRes] "collection" "DELETE" [] (fun _ => "f")) = true := by
  rfl

/-- C8 (amended): an unrecognized bundle type is always rejected before any
record is processed, and an unrecognized request method is rejected before
any record is processed when the bundle type is "transaction"; in both cases
the error does not depend on the records, so no partial container exists. -/
theorem create_bundle_fail_fast (resources : List BRes) (bundle_type request_method : String)
    (urn_mapping : Mapping) (fresh : Nat → String) :
    (bundle_type ≠ "transaction" → bundle_type ≠ "collection" →
      create_bundle resources bundle_type request_method urn_mapping fresh =
        .error ("Invalid bundle type: " ++ bundle_type)) ∧
    (bundle_type = "transaction" → request_method ≠ "POST" → request_method ≠ "PUT" →
      request_method ≠ "CONDITIONAL" →
      create_bundle resources bundle_type request_method urn_mapping fresh =
        .error ("Invalid request method: " ++ request_method)) := by
  constructor
  · intro h1 h2
    unfold create_bundle
    rw [if_pos ⟨h1, h2⟩]
  · intro h1 h2 h3 h4
    unfold create_bundle
    have hc1 : ¬(bundle_type ≠ "transaction" ∧ bundle_type ≠ "collection") := by
      intro hc
      exact hc.1 h1
    rw [if_neg hc1, if_pos ⟨h1, h2, h3, h4⟩]

/-- Witness for the amended C8: concrete rejections for a bad bundle type
and for a bad method on a transaction bundle. -/
theorem create_bundle_fail_fast_witness :
    create_bundle [sampleBRes] "batch" "POST" [] (fun _ => "f") =
      .error ("Invalid bundle type: " ++ "batch") ∧
    create_bundle [sampleBRes] "transaction" "DELETE" [] (fun _ => "f") =
      .error ("Invalid request method: " ++ "DELETE") :=
  ⟨(create_bundle_fail_fast [sampleBRes] "batch" "POST" [] (fun _ => "f")).1
      (by decide) (by decide),
   (create_bundle_fail_fast [sampleBRes] "transaction" "DELETE" [] (fun _ => "f")).2
      rfl (by decide) (by decide) (by decide)⟩

/-- C2: Idempotent reference rewrite.  Applying `_update_references` twice to
any record content with any identity map gives the same result as applying
it once, and a reference string already in transport-local form (starting
with `urn:uuid:`) is left untouched by the rewrite. -/
theorem update_references_idempotent (m : Mapping) (d : RData) :
    update_references m (update_references m d) = update_references m d ∧
    (∀ s : String, strStartsWith s "urn:uuid:" = true → rewriteRef m s = s) := by
  constructor
  · exact update_references_idem_mutual m d
  · intro s hs
    unfold rewriteRef
    rw [if_pos hs]

/-- Witness for C2 at a concrete record and mapping. -/
theorem update_references_idempotent_witness :
    (update_references [("pid", "u1")]
        (update_references [("pid", "u1")]
          (RData.dict [("reference", RData.str "Patient/pid")])) =
      update_references [("pid", "u1")]
        (RData.dict [("reference", RData.str "Patient/pid")])) ∧
    rewriteRef [("pid", "u1")] "urn:uuid:abc" = "urn:uuid:abc" :=
  ⟨(update_references_idempotent [("pid", "u1")]
      (RData.dict [("reference", RData.str "Patient/pid")])).1,
   (update_references_idempotent [("pid", "u1")]
      (RData.dict [("reference", RData.str "Patient/pid")])).2 "urn:uuid:abc" (by decide)⟩

theorem storeGet_storeSet_ne (st : Store) (i j : Nat) (m : Mapping) (h : j ≠ i) :
    storeGet (storeSet st i m) j = storeGet st j := by
  unfold storeGet storeSet
  induction st generalizing i j with
  | nil => simp
  | cons a l ih =>
    cases i with
    | zero =>
      cases j with
      | zero => exact absurd rfl h
      | succ j' => simp [List.set]
    | succ i' =>
      cases j with
      | zero => simp [List.set]
      | succ j' =>
        simp only [List.set, List.getD_cons_succ]
        exact ih i' j' (fun he => h (by rw [he]))

theorem storeGet_append_lt (st : Store) (m : Mapping) (i : Nat) (h : i < st.length) :
    storeGet (st ++ [m]) i = storeGet st i := by
  unfold storeGet
  induction st generalizing i with
  | nil => simp at h
  | cons a l ih =>
    cases i with
    | zero => simp
    | succ i' =>
      simp only [List.cons_append, List.getD_cons_succ]
      exact ih i' (by simpa using h)

theorem entriesLoopSt_frame (bundle_type request_method : String) (fresh : Nat → String) :
    ∀ (rs : List BRes) (st : Store) (mref i j : Nat), j ≠ mref →
      storeGet (entriesLoopSt bundle_type request_method fresh rs st mref i).1 j =
        storeGet st j := by
  intro rs
  induction rs with
  | nil => intro st mref i j _; simp [entriesLoopSt]
  | cons r rest ih =>
    intro st mref i j hj
    simp only [entriesLoopSt]
    rw [ih _ mref (i + 1) j hj]
    exact storeGet_storeSet_ne st mref j _ hj

/-- C10: Frame property of bundle assembly.  `create_bundle` copies the
caller-supplied identity map into a local combined mapping before
processing; entry creation records fresh transport identifiers only in that
copy, so after assembly the caller's dict object is unchanged. -/
theorem create_bundle_frame (st : Store) (caller : Nat) (resources : List BRes)
    (bundle_type request_method : String) (fresh : Nat → String)
    (hc : caller < st.length) :
    ∀ out, create_bundle_st st (some caller) resources bundle_type request_method fresh =
        .ok out → storeGet out.1 caller = storeGet st caller := by
  intro out hout
  unfold create_bundle_st at hout
  by_cases h1 : bundle_type ≠ "transaction" ∧ bundle_type ≠ "collection"
  · rw [if_pos h1] at hout
    exact absurd hout (by simp)
  · rw [if_neg h1] at hout
    by_cases h2 : bundle_type = "transaction" ∧ request_method ≠ "POST" ∧
        request_method ≠ "PUT" ∧ request_method ≠ "CONDITIONAL"
    · rw [if_pos h2] at hout
      exact absurd hout (by simp)
    · rw [if_neg h2] at hout
      have hout' := (Except.ok.injEq _ _).mp hout.symm
      subst hout'
      rw [entriesLoopSt_frame bundle_type request_method fresh resources _ st.length 0
        caller (by omega)]
      exact storeGet_append_lt st _ caller hc

/-- Witness for C10 on a concrete store, resource and call. -/
theorem create_bundle_frame_witness :
    (0 < ([[("pid", "u")]] : Store).length) ∧
    ∃ out, create_bundle_st [[("pid", "u")]] (some 0) [sampleBRes] "collection" "POST"
        (fun _ => "f") = .ok out ∧
      storeGet out.1 0 = storeGet [[("pid", "u")]] 0 :=
  ⟨by decide,
   ⟨_, rfl,
    create_bundle_frame [[("pid", "u")]] 0 [sampleBRes] "collection" "POST"
      (fun _ => "f") (by decide) _ rfl⟩⟩

/-- C7 counterexample: the condition grammar is not fail-closed as claimed.
"wage > 10" is not of the form "age > N" yet fires (substring matching),
and "age > ten" raises a ValueError instead of being treated as
non-matching. -/
theorem evaluate_rule_condition_counterexample :
    evaluate_rule_condition "wage > 10" (some 99) = .ok true ∧
    evaluate_rule_condition "age > ten" (some 99) =
      .error "ValueError: invalid literal for int" := by
  constructor <;> rfl

/-- C7 (amended): "true" always matches; a condition containing the
substring "age >" is evaluated by integer-parsing the stripped text after
the first ">", matching iff the context age (default 0) strictly exceeds
the parsed bound and raising a ValueError when that text is not an integer;
conditions without that substring (other than "true") never match and never
error. -/
theorem evaluate_rule_condition_amended (condition : String) (ctxAge : Option Int) :
    (condition = "true" → evaluate_rule_condition condition ctxAge = .ok true) ∧
    (condition ≠ "true" → strContains condition "age >" = true →
      ∀ part, (pySplit condition '>').get? 1 = some part →
        ((∀ n, pyInt? (pyStrip part) = some n →
            evaluate_rule_condition condition ctxAge = .ok (ctxAge.getD 0 > n)) ∧
         (pyInt? (pyStrip part) = none →
            evaluate_rule_condition condition ctxAge =
              .error "ValueError: invalid literal for int"))) ∧
    (condition ≠ "true" → strContains condition "age >" = false →
      evaluate_rule_condition condition ctxAge = .ok false) := by
  refine ⟨?_, ?_, ?_⟩
  · intro h
    simp [evaluate_rule_condition, h]
  · intro h1 h2 part hpart
    rw [List.get?_eq_getElem?] at hpart
    constructor
    · intro n hn
      simp [evaluate_rule_condition, h1, h2, hpart, hn]
    · intro hn
      simp [evaluate_rule_condition, h1, h2, hpart, hn]
  · intro h1 h2
    simp [evaluate_rule_condition, h1, h2]

theorem randint_bounds (rng : SeededRandom) (a b : Int) (h : a ≤ b) :
    a ≤ (rng.randint a b).1 ∧ (rng.randint a b).1 ≤ b := by
  unfold SeededRandom.randint SeededRandom.next
  simp only
  have hk : 0 < (b - a + 1).toNat := by omega
  have hmod : rng.stream rng.pos % (b - a + 1).toNat < (b - a + 1).toNat :=
    Nat.mod_lt _ hk
  have h1 : (0 : Int) ≤ Int.ofNat (rng.stream rng.pos % (b - a + 1).toNat) :=
    Int.ofNat_nonneg _
  have h2 : (Int.ofNat (rng.stream rng.pos % (b - a + 1).toNat)) <
      Int.ofNat (b - a + 1).toNat := Int.ofNat_lt.mpr hmod
  have h3 : Int.ofNat (b - a + 1).toNat = b - a + 1 := by
    rw [Int.ofNat_eq_coe, Int.toNat_of_nonneg (by omega)]
  omega

theorem drawN_length (a b : Int) :
    ∀ (n : Nat) (rng : SeededRandom), (drawN a b n rng).1.length = n := by
  intro n
  induction n with
  | zero => intro rng; simp [drawN]
  | succ k ih =>
    intro rng
    simp only [drawN, List.length_cons]
    rw [ih]

theorem drawN_bounds (a b : Int) (h : a ≤ b) :
    ∀ (n : Nat) (rng : SeededRandom), ∀ x ∈ (drawN a b n rng).1, a ≤ x ∧ x ≤ b := by
  intro n
  induction n with
  | zero => intro rng x hx; simp [drawN] at hx
  | succ k ih =>
    intro rng x hx
    simp only [drawN, List.mem_cons] at hx
    rcases hx with hx | hx
    · subst hx
      exact randint_bounds rng a b h
    · exact ih _ x hx

theorem sortInts_length (xs : List Int) : (sortInts xs).length = xs.length :=
  List.length_insertionSort _ _

theorem sortInts_sorted (xs : List Int) : (sortInts xs).Sorted (· ≤ ·) :=
  List.sorted_insertionSort _ _

theorem sortInts_perm (xs : List Int) : (sortInts xs).Perm xs :=
  List.perm_insertionSort _ _

theorem sorted_map_sub (now : Int) (l : List Int) (h : l.Sorted (· ≤ ·)) :
    (l.map (fun d => now - d)).Sorted (· ≥ ·) := by
  unfold List.Sorted at *
  rw [List.pairwise_map]
  exact h.imp (fun hab => by omega)

theorem map_sub_sub (now : Int) (l : List Int) :
    ((l.map (fun d => now - d)).map (fun x => now - x)) = l := by
  rw [List.map_map]
  have : ∀ d ∈ l, (fun x => now - x) ((fun d => now - d) d) = id d := by
    intro d _
    simp
  calc l.map ((fun x => now - x) ∘ (fun d => now - d))
      = l.map id := List.map_congr_left (by intro d hd; simpa using this d hd)
    _ = l := List.map_id l

/-- C5: Time-point schedule.  The number of timestamps equals the requested
quantity with a minimum of 1; with a `days_ago` anchor and qty > 1 the
timestamps step backward from now by the explicit `spacing_days` or the
derived spacing `max(days_ago // max(qty-1,1), 1)`; with only
`lookback_months` they are one bounded random draw (qty = 1) or evenly
spaced across the window by rounding `i * total/(qty-1)` (qty > 1); with
`lookback_days` they are qty independent bounded draws sorted into
descending timestamp order. -/
theorem generate_time_points_schedule (rng : SeededRandom) (times : Option TimesSpec)
    (now : Int) :
    ((generate_time_points rng times now).1.length =
       (match times with
        | none => (1 : Int)
        | some t => max (t.qty.getD 1) 1).toNat) ∧
    (∀ t base, times = some t → t.days_ago = some base →
      (max (t.qty.getD 1) 1 = 1 →
        (generate_time_points rng times now).1 = [now - base]) ∧
      (1 < max (t.qty.getD 1) 1 →
        (generate_time_points rng times now).1 =
          (List.range (max (t.qty.getD 1) 1).toNat).map
            (fun (i : Nat) => now - (base + (i : Int) *
              (t.spacing_days.getD
                (max (base.fdiv (max (max (t.qty.getD 1) 1 - 1) 1)) 1)))))) ∧
    (∀ t lm, times = some t → t.days_ago = none → t.lookback_months = some lm →
      (max (t.qty.getD 1) 1 = 1 →
        ∃ d, 0 ≤ d ∧ d ≤ max (lm * 30) 1 ∧
          (generate_time_points rng times now).1 = [now - d]) ∧
      (1 < max (t.qty.getD 1) 1 →
        (generate_time_points rng times now).1 =
          (List.range (max (t.qty.getD 1) 1).toNat).map
            (fun (i : Nat) => now - roundHalfEven ((i : Int) * (lm * 30))
              (max (max (t.qty.getD 1) 1 - 1) 1)))) ∧
    (∀ t ld, times = some t → t.days_ago = none → t.lookback_months = none →
      t.lookback_days = some ld →
      ((generate_time_points rng times now).1.map (fun x => now - x)).Perm
          (drawN 0 (max ld 1) (max (t.qty.getD 1) 1).toNat rng).1 ∧
      (generate_time_points rng times now).1.Sorted (· ≥ ·) ∧
      (∀ x ∈ (generate_time_points rng times now).1,
        now - max ld 1 ≤ x ∧ x ≤ now)) := by
  refine ⟨?_, ?_, ?_, ?_⟩
  · cases times with
    | none =>
      simp only [generate_time_points, List.length_map]
      rw [drawN_length]
    | some t =>
      simp only [generate_time_points]
      cases hda : t.days_ago with
      | some base =>
        by_cases hq : max (t.qty.getD 1) 1 = 1
        · simp [hq]
        · have h1 : (1 : Int) ≤ max (t.qty.getD 1) 1 := le_max_right _ _
          simp [hq, List.length_map, List.length_range]
      | none =>
        cases hlm : t.lookback_months with
        | some lm =>
          by_cases hq : max (t.qty.getD 1) 1 = 1
          · simp [hq]
          · simp [hq, List.length_map, List.length_range]
        | none =>
          cases hld : t.lookback_days with
          | some ld =>
            simp only [List.length_map]
            rw [sortInts_length, drawN_length]
          | none =>
            simp only [List.length_map]
            rw [drawN_length]
  · intro t base ht hda
    subst ht
    constructor
    · intro hq
      simp [generate_time_points, hda, hq]
    · intro hq
      have hq' : ¬(max (t.qty.getD 1) 1 = 1) := by omega
      simp [generate_time_points, hda, hq']
  · intro t lm ht hda hlm
    subst ht
    constructor
    · intro hq
      refine ⟨(rng.randint 0 (max (lm * 30) 1)).1, ?_, ?_, ?_⟩
      · exact (randint_bounds rng 0 (max (lm * 30) 1) (by omega)).1
      · exact (randint_bounds rng 0 (max (lm * 30) 1) (by omega)).2
      · simp [generate_time_points, hda, hlm, hq]
    · intro hq
      have hq' : ¬(max (t.qty.getD 1) 1 = 1) := by omega
      simp [generate_time_points, hda, hlm, hq']
  · intro t ld ht hda hlm hld
    subst ht
    have hout : (generate_time_points rng (some t) now).1 =
        (sortInts (drawN 0 (max ld 1) (max (t.qty.getD 1) 1).toNat rng).1).map
          (fun d => now - d) := by
      simp [generate_time_points, hda, hlm, hld]
    refine ⟨?_, ?_, ?_⟩
    · rw [hout, map_sub_sub]
      exact sortInts_perm _
    · rw [hout]
      exact sorted_map_sub now _ (sortInts_sorted _)
    · intro x hx
      rw [hout] at hx
      obtain ⟨d, hd, hdx⟩ := List.mem_map.mp hx
      have hdm : d ∈ (drawN 0 (max ld 1) (max (t.qty.getD 1) 1).toNat rng).1 :=
        (sortInts_perm _).mem_iff.mp hd
      have hb := drawN_bounds 0 (max ld 1) (by omega) _ rng d hdm
      omega

/-- Witness for the time-point schedule at concrete specifications. -/
theorem generate_time_points_schedule_witness :
    ((generate_time_points ⟨fun n => n, 0⟩
        (some ⟨some 3, some 180, none, none, none⟩) 0).1.length =
      (max ((3 : Int)) 1).toNat) ∧
    (generate_time_points ⟨fun n => n, 0⟩
        (some ⟨some 3, some 180, none, none, none⟩) 0).1 =
      (List.range (max ((3 : Int)) 1).toNat).map
        (fun (i : Nat) => (0 : Int) - (180 + (i : Int) *
          ((Option.none).getD (max ((180 : Int).fdiv (max (max (3 : Int) 1 - 1) 1)) 1)))) :=
  ⟨by
    have h := (generate_time_points_schedule ⟨fun n => n, 0⟩
      (some ⟨some 3, some 180, none, none, none⟩) 0).1
    simpa using h,
   ((generate_time_points_schedule ⟨fun n => n, 0⟩
      (some ⟨some 3, some 180, none, none, none⟩) 0).2.1
      ⟨some 3, some 180, none, none, none⟩ 180 rfl rfl).2 (by decide)⟩

/-- Witness for the amended C7 on concrete conditions. -/
theorem evaluate_rule_condition_amended_witness :
    evaluate_rule_condition "true" (some 0) = .ok true ∧
    evaluate_rule_condition "age > 50" (some 60) =
      .ok ((some (60 : Int)).getD 0 > 50) ∧
    evaluate_rule_condition "glucose high" (some 60) = .ok false :=
  ⟨(evaluate_rule_condition_amended "true" (some 0)).1 rfl,
   ((evaluate_rule_condition_amended "age > 50" (some 60)).2.1 (by decide) (by decide)
      " 50" (by decide)).1 50 (by decide),
   (evaluate_rule_condition_amended "glucose high" (some 60)).2.2 (by decide) (by decide)⟩

/-- C6 counterexample: an immunization action with explicit `qty = 1` and
`days_ago = 180` yields one record whose occurrence is 180 days back but
whose dose quantity is absent — not `doseNumber = 1` as the claim requires
for dose i = 0. -/
theorem immunization_dose_counterexample :
    (applyImmunizations samplePatient "urn:uuid:p" "POST" 0
        [⟨some "208", some 1, some 180, none, none⟩] ⟨fun n => n, 0⟩ []).1.map immProj =
      [some ((0 : Int) - 180, none)] := by
  rfl

theorem applyImmunizationDoses_spec (patient : PatientR) (subjRef request_method : String)
    (d : ImmunizationDef) (now base : Int) (hda : d.days_ago = some base)
    (q : Int) (hq : 1 < q) :
    ∀ (k : Nat) (i : Int), 0 ≤ i → ∀ (rng : SeededRandom) (m : Mapping),
      (applyImmunizationDoses patient subjRef request_method d q now k i rng m).1.map
          immProj =
        (List.range k).map
          (fun (j : Nat) => some (now - (base - (i + (j : Int)) * 30), some (i + (j : Int) + 1))) := by
  intro k
  induction k with
  | zero => intro i _ rng m; simp [applyImmunizationDoses]
  | succ n ih =>
    intro i hi rng m
    have hcond : q > 1 ∧ d.days_ago.isSome := by
      constructor
      · omega
      · rw [hda]; rfl
    have hne : i + 1 ≠ 0 := by omega
    simp only [applyImmunizationDoses]
    rw [if_pos hcond]
    simp only [List.map_cons]
    rw [ih (i + 1) (by omega), List.range_succ_eq_map, List.map_cons, List.map_map]
    refine congrArg₂ List.cons ?_ ?_
    · simp [create_immunization, immProj, hda, hne]
    · apply List.map_congr_left
      intro j hj
      simp only [Function.comp_apply, Nat.cast_succ]
      have e : i + 1 + (j : Int) = i + ((j : Int) + 1) := by ring
      rw [e]

/-- C6 (amended): Immunization dose repetition.  For an immunization action
with an explicit `days_ago` anchor: when qty > 1, dose j (0-based) is
created with occurrence `now - (days_ago - j*30)` (each successive dose 30
days more recent) and dose quantity `j+1`, for exactly qty doses; when
qty = 1 the definition is used unchanged — occurrence `now - days_ago` and
a dose quantity only if the definition itself carries a truthy
`doseNumber`. -/
theorem immunization_dose_repetition (patient : PatientR) (subjRef request_method : String)
    (d : ImmunizationDef) (now base : Int) (rng : SeededRandom) (m : Mapping)
    (hda : d.days_ago = some base) :
    (1 < d.qty.getD 1 →
      (applyImmunizations patient subjRef request_method now [d] rng m).1.map immProj =
        (List.range (d.qty.getD 1).toNat).map
          (fun (j : Nat) => some (now - (base - (j : Int) * 30), some ((j : Int) + 1)))) ∧
    (d.qty.getD 1 = 1 →
      (applyImmunizations patient subjRef request_method now [d] rng m).1.map immProj =
        [some (now - base,
          match d.doseNumber with
          | some n => if n ≠ 0 then some n else none
          | none => none)]) := by
  constructor
  · intro hq
    simp only [applyImmunizations, List.append_nil]
    rw [applyImmunizationDoses_spec patient subjRef request_method d now base hda
      (d.qty.getD 1) hq (d.qty.getD 1).toNat 0 (le_refl 0) rng m]
    apply List.map_congr_left
    intro j hj
    simp
  · intro hq
    simp only [applyImmunizations, hq, List.append_nil, Int.toNat_one,
      applyImmunizationDoses]
    rw [if_neg (fun hc => absurd hc.1 (by omega))]
    simp [create_immunization, hda, immProj, applyImmunizationDoses]

/-- Witness for C6 at the spec scenario: qty = 2 with days_ago = 180 gives
occurrences 180 and 150 days back with dose quantities 1 and 2. -/
theorem immunization_dose_repetition_witness :
    (applyImmunizations samplePatient "urn:uuid:p" "POST" 0
        [⟨some "208", some 2, some 180, none, none⟩] ⟨fun n => n, 0⟩ []).1.map immProj =
      (List.range (((⟨some "208", some 2, some 180, none, none⟩ :
          ImmunizationDef).qty.getD 1)).toNat).map
        (fun (j : Nat) => some ((0 : Int) - (180 - (j : Int) * 30), some ((j : Int) + 1))) :=
  (immunization_dose_repetition samplePatient "urn:uuid:p" "POST"
    ⟨some "208", some 2, some 180, none, none⟩ 0 180 ⟨fun n => n, 0⟩ [] rfl).1
    (by decide)

/-- C4: Symmetric related-person protocol.  A related-person action with a
string relationship succeeds and adds exactly one new Patient record and two
RelatedPerson records; the first RelatedPerson carries the stated
relationship's table code and a cross-link identifier to the new patient's
id, the second carries the code of the inverse relationship under the fixed
table (parent and child swap, spouse, sibling and emergency map to
themselves, guardian maps to child, unknown lowercased relationships map to
themselves) and a cross-link to the original subject's id. -/
theorem symmetrical_related_persons (rng : SeededRandom) (patient : PatientR)
    (patient_ref : String) (related_def : RelatedDef) (request_method : String)
    (m : Mapping) (rel : String) (hrel : related_def.relationship = some rel) :
    ∃ out, create_symmetrical_related_persons rng patient patient_ref related_def
        request_method m = .ok out ∧
      ∃ (p' : PatientR) (rp1 rp2 : RelatedPersonR),
        out.1 = [.patient p', .relatedPerson rp1, .relatedPerson rp2] ∧
        (out.1.filter (fun r => r.rtype == "Patient")).length = 1 ∧
        (out.1.filter (fun r => r.rtype == "RelatedPerson")).length = 2 ∧
        rp1.relationshipCode = (relationshipMapping rel).1 ∧
        rp2.relationshipCode =
          (relationshipMapping (inverseRelationship (pyLower rel))).1 ∧
        rp1.identifiers = [("http://example.org/fhir/related-person-patient", p'.id)] ∧
        rp2.identifiers = [("http://example.org/fhir/related-person-patient", patient.id)] := by
  simp only [create_symmetrical_related_persons, create_related_person, hrel,
    Option.getD_some]
  refine ⟨_, rfl, _, _, _, rfl, ?_, ?_, rfl, rfl, rfl, rfl⟩
  · rfl
  · rfl

/-- Witness for C4 at a concrete "parent" relationship: the inverse code is
CHILD. -/
theorem symmetrical_related_persons_witness :
    ∃ out, create_symmetrical_related_persons ⟨fun n => n, 0⟩ samplePatient "p-urn"
        sampleRelatedDef "POST" [] = .ok out ∧
      ∃ (p' : PatientR) (rp1 rp2 : RelatedPersonR),
        out.1 = [.patient p', .relatedPerson rp1, .relatedPerson rp2] ∧
        (out.1.filter (fun r => r.rtype == "Patient")).length = 1 ∧
        (out.1.filter (fun r => r.rtype == "RelatedPerson")).length = 2 ∧
        rp1.relationshipCode = (relationshipMapping "parent").1 ∧
        rp2.relationshipCode =
          (relationshipMapping (inverseRelationship (pyLower "parent"))).1 ∧
        rp1.identifiers = [("http://example.org/fhir/related-person-patient", p'.id)] ∧
        rp2.identifiers =
          [("http://example.org/fhir/related-person-patient", samplePatient.id)] :=
  symmetrical_related_persons ⟨fun n => n, 0⟩ samplePatient "p-urn" sampleRelatedDef
    "POST" [] "parent" rfl

/-- C9: Resource-kind allow-list filter.  For a record list headed by the
subject Patient and a non-empty allow-list, the filter's output contains
exactly the records whose kind is listed, plus the subject Patient record
re-inserted whenever any record survives (so surviving records never lose
their subject). -/
theorem filter_resources_allowlist (resource_filter : List String) (p : Resource)
    (rest : List Resource) (hfil : resource_filter ≠ [])
    (hp : p.rtype = "Patient") :
    ∀ r, r ∈ filter_resources resource_filter (p :: rest) ↔
      ((r ∈ p :: rest ∧ r.rtype ∈ resource_filter) ∨
       (r = p ∧ ∃ s ∈ p :: rest, s.rtype ∈ resource_filter)) := by
  intro r
  set survivors := (p :: rest).filter (fun x => resource_filter.contains x.rtype)
    with hsurv
  have hfr : filter_resources resource_filter (p :: rest) =
      (if (!survivors.isEmpty && !(survivors.any (fun x => x.rtype == "Patient"))) = true
       then
        match (p :: rest).find? (fun x => x.rtype == "Patient") with
        | some q => q :: survivors
        | none => survivors
       else survivors) := by
    unfold filter_resources
    rw [if_neg hfil]
  rw [hfr]
  have hmem : ∀ x : Resource,
      x ∈ survivors ↔ x ∈ p :: rest ∧ x.rtype ∈ resource_filter := by
    intro x
    rw [hsurv, List.mem_filter]
    constructor
    · rintro ⟨h1, h2⟩
      exact ⟨h1, List.elem_iff.mp h2⟩
    · rintro ⟨h1, h2⟩
      exact ⟨h1, List.elem_iff.mpr h2⟩
  by_cases hpat : "Patient" ∈ resource_filter
  · have hps : p ∈ survivors := (hmem p).mpr ⟨List.mem_cons_self _ _, hp ▸ hpat⟩
    have hany : survivors.any (fun x => x.rtype == "Patient") = true := by
      rw [List.any_eq_true]
      exact ⟨p, hps, by simp [hp]⟩
    rw [hany]
    simp only [Bool.not_true, Bool.and_false, Bool.false_eq_true, if_false]
    rw [hmem r]
    constructor
    · intro h
      exact Or.inl h
    · rintro (h | ⟨hrp, _⟩)
      · exact h
      · subst hrp
        exact (hmem r).mp hps
  · have hnopat : survivors.any (fun x => x.rtype == "Patient") = false := by
      rw [List.any_eq_false]
      intro x hx
      have h2 := ((hmem x).mp hx).2
      intro hbeq
      have hxr : x.rtype = "Patient" := by rwa [beq_iff_eq] at hbeq
      exact hpat (hxr ▸ h2)
    by_cases hse : survivors.isEmpty
    · have hsnil : survivors = [] := List.isEmpty_iff.mp hse
      rw [hse]
      simp only [Bool.not_true, Bool.false_and, Bool.false_eq_true, if_false]
      rw [hsnil]
      simp only [List.not_mem_nil, false_iff]
      rintro (⟨h1, h2⟩ | ⟨_, s, hs1, hs2⟩)
      · have : r ∈ survivors := (hmem r).mpr ⟨h1, h2⟩
        rw [hsnil] at this
        simp at this
      · have : s ∈ survivors := (hmem s).mpr ⟨hs1, hs2⟩
        rw [hsnil] at this
        simp at this
    · have hse' : survivors.isEmpty = false := by
        cases h : survivors.isEmpty
        · rfl
        · exact absurd h hse
      rw [hse', hnopat]
      simp only [Bool.not_false, Bool.true_and, if_true]
      have hfind : (p :: rest).find? (fun x => x.rtype == "Patient") = some p := by
        rw [List.find?_cons_of_pos]
        rw [hp]
        rfl
      rw [hfind]
      rw [List.mem_cons]
      have hex : ∃ s ∈ p :: rest, s.rtype ∈ resource_filter := by
        have hne : survivors ≠ [] := by simpa [List.isEmpty_iff] using hse
        obtain ⟨x, hx⟩ := List.exists_mem_of_ne_nil survivors hne
        obtain ⟨hx1, hx2⟩ := (hmem x).mp hx
        exact ⟨x, hx1, hx2⟩
      constructor
      · rintro (hrp | hrs)
        · exact Or.inr ⟨hrp, hex⟩
        · exact Or.inl ((hmem r).mp hrs)
      · rintro (h | ⟨hrp, _⟩)
        · exact Or.inr ((hmem r).mpr h)
        · exact Or.inl hrp

theorem rid_timeErase (r : Resource) : r.timeErase.rid = r.rid := by
  cases r <;> rfl

theorem rtype_timeErase (r : Resource) : r.timeErase.rtype = r.rtype := by
  cases r <;> rfl

theorem erase_id (p : PatientR) : p.erase.id = p.id := rfl

theorem create_patient_erase (rng : SeededRandom) (pid : Option String)
    (d₁ d₂ : PatientDef) (hname : d₁.name = d₂.name) (hg : d₁.gender = d₂.gender)
    (hid : d₁.identifiers = d₂.identifiers) :
    (create_patient rng d₁ pid).1.erase = (create_patient rng d₂ pid).1.erase ∧
    (create_patient rng d₁ pid).2 = (create_patient rng d₂ pid).2 := by
  unfold create_patient
  rw [hname, hg, hid]
  exact ⟨rfl, rfl⟩

theorem create_condition_nowInv (rng : SeededRandom) (pid₁ pid₂ : String)
    (d : ConditionDef) (pref : Option String) (cid : Option String)
    (now₁ now₂ : Int) (hid : pid₁ = pid₂) :
    (create_condition rng pid₁ d pref cid now₁).1.timeErase =
      (create_condition rng pid₂ d pref cid now₂).1.timeErase ∧
    (create_condition rng pid₁ d pref cid now₁).2 =
      (create_condition rng pid₂ d pref cid now₂).2 := by
  rw [hid]
  exact ⟨rfl, rfl⟩

theorem create_encounter_nowInv (rng : SeededRandom) (pid₁ pid₂ : String)
    (d : EncounterDef) (pref : Option String) (eid : Option String)
    (now₁ now₂ : Int) (hid : pid₁ = pid₂) :
    (create_encounter rng pid₁ d pref eid now₁).1.timeErase =
      (create_encounter rng pid₂ d pref eid now₂).1.timeErase ∧
    (create_encounter rng pid₁ d pref eid now₁).2 =
      (create_encounter rng pid₂ d pref eid now₂).2 := by
  rw [hid]
  exact ⟨rfl, rfl⟩

theorem create_immunization_nowInv (rng : SeededRandom) (pid₁ pid₂ : String)
    (d : ImmunizationDef) (pref : Option String) (iid : Option String)
    (now₁ now₂ : Int) (hid : pid₁ = pid₂) :
    (Resource.immunization (create_immunization rng pid₁ d pref iid now₁).1).timeErase =
      (Resource.immunization (create_immunization rng pid₂ d pref iid now₂).1).timeErase ∧
    (create_immunization rng pid₁ d pref iid now₁).2 =
      (create_immunization rng pid₂ d pref iid now₂).2 := by
  rw [hid]
  exact ⟨rfl, rfl⟩

theorem create_diagnostic_report_nowInv (rng : SeededRandom) (pid₁ pid₂ : String)
    (d : ReportDef) (refs : List String) (pref : Option String)
    (rid : Option String) (now₁ now₂ : Int) (hid : pid₁ = pid₂) :
    (create_diagnostic_report rng pid₁ d refs pref rid now₁).1.timeErase =
      (create_diagnostic_report rng pid₂ d refs pref rid now₂).1.timeErase ∧
    (create_diagnostic_report rng pid₁ d refs pref rid now₁).2 =
      (create_diagnostic_report rng pid₂ d refs pref rid now₂).2 := by
  rw [hid]
  exact ⟨rfl, rfl⟩

theorem create_observation_nowInv (rng : SeededRandom) (pid₁ pid₂ : String)
    (d : ObservationDef) (pref : Option String) (oid : Option String)
    (e₁ e₂ : Int) (now₁ now₂ : Int) (hid : pid₁ = pid₂) :
    (create_observation rng pid₁ d pref oid (some e₁) now₁).1.timeErase =
      (create_observation rng pid₂ d pref oid (some e₂) now₂).1.timeErase ∧
    (create_observation rng pid₁ d pref oid (some e₁) now₁).2 =
      (create_observation rng pid₂ d pref oid (some e₂) now₂).2 := by
  rw [hid]
  exact ⟨rfl, rfl⟩

theorem create_related_person_birthInv (rng : SeededRandom) (pid₁ pid₂ : String)
    (d₁ d₂ : RelatedDef) (pref : Option String) (rid : Option String)
    (hid : pid₁ = pid₂)
    (hname : d₁.name = d₂.name) (hrel : d₁.relationship = d₂.relationship)
    (hact : d₁.active = d₂.active) (hg : d₁.gender = d₂.gender)
    (hiden : d₁.identifiers = d₂.identifiers) :
    Except.map (fun pr => ({ pr.1 with birthDate := none }, pr.2))
        (create_related_person rng pid₁ d₁ pref rid) =
      Except.map (fun pr => ({ pr.1 with birthDate := none }, pr.2))
        (create_related_person rng pid₂ d₂ pref rid) := by
  rw [hid]
  unfold create_related_person
  rw [hname, hrel, hact, hg, hiden]
  cases d₂.relationship <;> rfl

theorem generate_time_points_nowInv (rng : SeededRandom) (times : Option TimesSpec)
    (now₁ now₂ : Int) :
    (generate_time_points rng times now₁).2 = (generate_time_points rng times now₂).2 ∧
    (generate_time_points rng times now₁).1.length =
      (generate_time_points rng times now₂).1.length := by
  cases times with
  | none =>
    simp only [generate_time_points, List.length_map]
    constructor <;> trivial
  | some t =>
    simp only [generate_time_points]
    cases hda : t.days_ago with
    | some base =>
      by_cases hq : max (t.qty.getD 1) 1 = 1
      · simp [hq]
      · simp [hq]
    | none =>
      cases hlm : t.lookback_months with
      | some lm =>
        by_cases hq : max (t.qty.getD 1) 1 = 1
        · simp [hq]
        · simp [hq]
      | none =>
        cases hld : t.lookback_days with
        | some ld =>
          simp only [List.length_map]
          constructor <;> trivial
        | none =>
          simp only [List.length_map]
          constructor <;> trivial

theorem applyConditions_nowInv (subjRef request_method : String) (p₁ p₂ : PatientR)
    (hid : p₁.id = p₂.id) (now₁ now₂ : Int) :
    ∀ (defs : List ConditionDef) (rng : SeededRandom) (m : Mapping),
      (applyConditions p₁ subjRef request_method now₁ defs rng m).1.map Resource.timeErase =
        (applyConditions p₂ subjRef request_method now₂ defs rng m).1.map Resource.timeErase ∧
      (applyConditions p₁ subjRef request_method now₁ defs rng m).2.1 =
        (applyConditions p₂ subjRef request_method now₂ defs rng m).2.1 ∧
      (applyConditions p₁ subjRef request_method now₁ defs rng m).2.2 =
        (applyConditions p₂ subjRef request_method now₂ defs rng m).2.2 := by
  intro defs
  induction defs with
  | nil => intro rng m; exact ⟨rfl, rfl, rfl⟩
  | cons d rest ih =>
    intro rng m
    simp only [applyConditions, List.map_cons]
    obtain ⟨h1, h2⟩ := create_condition_nowInv (drawIdAndUrn rng request_method m).2.2
      p₁.id p₂.id d (some subjRef) (some (drawIdAndUrn rng request_method m).1)
      now₁ now₂ hid
    rw [h1, h2]
    obtain ⟨i1, i2, i3⟩ := ih (create_condition (drawIdAndUrn rng request_method m).2.2
      p₂.id d (some subjRef) (some (drawIdAndUrn rng request_method m).1) now₂).2
      (drawIdAndUrn rng request_method m).2.1
    rw [i1, i2, i3]
    exact ⟨rfl, rfl, rfl⟩

theorem applyMeds_idInv (subjRef request_method : String) (p₁ p₂ : PatientR)
    (hid : p₁.id = p₂.id) :
    ∀ (defs : List MedicationDef) (rng : SeededRandom) (m : Mapping),
      (applyMeds p₁ subjRef request_method defs rng m).1.map Resource.timeErase =
        (applyMeds p₂ subjRef request_method defs rng m).1.map Resource.timeErase ∧
      (applyMeds p₁ subjRef request_method defs rng m).2.1 =
        (applyMeds p₂ subjRef request_method defs rng m).2.1 ∧
      (applyMeds p₁ subjRef request_method defs rng m).2.2 =
        (applyMeds p₂ subjRef request_method defs rng m).2.2 := by
  intro defs
  induction defs with
  | nil => intro rng m; exact ⟨rfl, rfl, rfl⟩
  | cons d rest ih =>
    intro rng m
    simp only [applyMeds, List.map_cons]
    rw [hid]
    obtain ⟨i1, i2, i3⟩ := ih (create_medication_request
      (drawIdAndUrn rng request_method m).2.2 p₂.id d (some subjRef)
      (some (drawIdAndUrn rng request_method m).1)).2 (drawIdAndUrn rng request_method m).2.1
    rw [i1, i2, i3]
    exact ⟨rfl, rfl, rfl⟩

theorem applyCoverage_idInv (subjRef request_method : String) (p₁ p₂ : PatientR)
    (hid : p₁.id = p₂.id) :
    ∀ (defs : List CoverageDef) (rng : SeededRandom) (m : Mapping),
      (applyCoverage p₁ subjRef request_method defs rng m).1.map Resource.timeErase =
        (applyCoverage p₂ subjRef request_method defs rng m).1.map Resource.timeErase ∧
      (applyCoverage p₁ subjRef request_method defs rng m).2.1 =
        (applyCoverage p₂ subjRef request_method defs rng m).2.1 ∧
      (applyCoverage p₁ subjRef request_method defs rng m).2.2 =
        (applyCoverage p₂ subjRef request_method defs rng m).2.2 := by
  intro defs
  induction defs with
  | nil => intro rng m; exact ⟨rfl, rfl, rfl⟩
  | cons d rest ih =>
    intro rng m
    simp only [applyCoverage, List.map_cons]
    rw [hid]
    obtain ⟨i1, i2, i3⟩ := ih (create_coverage
      (drawIdAndUrn rng request_method m).2.2 p₂.id d (some subjRef)
      (some (drawIdAndUrn rng request_method m).1)).2 (drawIdAndUrn rng request_method m).2.1
    rw [i1, i2, i3]
    exact ⟨rfl, rfl, rfl⟩

theorem applyObservationOccs_nowInv (subjRef request_method : String) (p₁ p₂ : PatientR)
    (hid : p₁.id = p₂.id) (d : ObservationDef) (now₁ now₂ : Int) :
    ∀ (occs₁ occs₂ : List Int), occs₁.length = occs₂.length →
      ∀ (rng : SeededRandom) (m : Mapping),
      (applyObservationOccs p₁ subjRef request_method d now₁ occs₁ rng m).1.map
          Resource.timeErase =
        (applyObservationOccs p₂ subjRef request_method d now₂ occs₂ rng m).1.map
          Resource.timeErase ∧
      (applyObservationOccs p₁ subjRef request_method d now₁ occs₁ rng m).2.1 =
        (applyObservationOccs p₂ subjRef request_method d now₂ occs₂ rng m).2.1 ∧
      (applyObservationOccs p₁ subjRef request_method d now₁ occs₁ rng m).2.2 =
        (applyObservationOccs p₂ subjRef request_method d now₂ occs₂ rng m).2.2 := by
  intro occs₁
  induction occs₁ with
  | nil =>
    intro occs₂ hlen rng m
    cases occs₂ with
    | nil => exact ⟨rfl, rfl, rfl⟩
    | cons b t => simp at hlen
  | cons a t ih =>
    intro occs₂ hlen rng m
    cases occs₂ with
    | nil => simp at hlen
    | cons b t₂ =>
      simp only [applyObservationOccs, List.map_cons]
      obtain ⟨h1, h2⟩ := create_observation_nowInv (drawIdAndUrn rng request_method m).2.2
        p₁.id p₂.id d (some subjRef) (some (drawIdAndUrn rng request_method m).1)
        a b now₁ now₂ hid
      rw [h1, h2]
      obtain ⟨i1, i2, i3⟩ := ih t₂ (by simpa using hlen)
        (create_observation (drawIdAndUrn rng request_method m).2.2 p₂.id d
          (some subjRef) (some (drawIdAndUrn rng request_method m).1) (some b) now₂).2
        (drawIdAndUrn rng request_method m).2.1
      rw [i1, i2, i3]
      exact ⟨rfl, rfl, rfl⟩

theorem applyObservations_nowInv (subjRef request_method : String) (p₁ p₂ : PatientR)
    (hid : p₁.id = p₂.id) (now₁ now₂ : Int) :
    ∀ (defs : List ObservationDef) (rng : SeededRandom) (m : Mapping),
      (applyObservations p₁ subjRef request_method now₁ defs rng m).1.map
          Resource.timeErase =
        (applyObservations p₂ subjRef request_method now₂ defs rng m).1.map
          Resource.timeErase ∧
      (applyObservations p₁ subjRef request_method now₁ defs rng m).2.1 =
        (applyObservations p₂ subjRef request_method now₂ defs rng m).2.1 ∧
      (applyObservations p₁ subjRef request_method now₁ defs rng m).2.2 =
        (applyObservations p₂ subjRef request_method now₂ defs rng m).2.2 := by
  intro defs
  induction defs with
  | nil => intro rng m; exact ⟨rfl, rfl, rfl⟩
  | cons d rest ih =>
    intro rng m
    simp only [applyObservations, List.map_append]
    obtain ⟨hg1, hg2⟩ := generate_time_points_nowInv rng d.times now₁ now₂
    rw [hg1]
    obtain ⟨o1, o2, o3⟩ := applyObservationOccs_nowInv subjRef request_method p₁ p₂ hid
      d now₁ now₂ (generate_time_points rng d.times now₁).1
      (generate_time_points rng d.times now₂).1 hg2
      (generate_time_points rng d.times now₂).2 m
    rw [o1, o2, o3]
    obtain ⟨i1, i2, i3⟩ := ih
      (applyObservationOccs p₂ subjRef request_method d now₂
        (generate_time_points rng d.times now₂).1
        (generate_time_points rng d.times now₂).2 m).2.2
      (applyObservationOccs p₂ subjRef request_method d now₂
        (generate_time_points rng d.times now₂).1
        (generate_time_points rng d.times now₂).2 m).2.1
    rw [i1, i2, i3]
    exact ⟨rfl, rfl, rfl⟩

theorem applyImmunizationDoses_nowInv (subjRef request_method : String)
    (p₁ p₂ : PatientR) (hid : p₁.id = p₂.id) (d : ImmunizationDef) (qty : Int)
    (now₁ now₂ : Int) :
    ∀ (k : Nat) (i : Int) (rng : SeededRandom) (m : Mapping),
      (applyImmunizationDoses p₁ subjRef request_method d qty now₁ k i rng m).1.map
          Resource.timeErase =
        (applyImmunizationDoses p₂ subjRef request_method d qty now₂ k i rng m).1.map
          Resource.timeErase ∧
      (applyImmunizationDoses p₁ subjRef request_method d qty now₁ k i rng m).2.1 =
        (applyImmunizationDoses p₂ subjRef request_method d qty now₂ k i rng m).2.1 ∧
      (applyImmunizationDoses p₁ subjRef request_method d qty now₁ k i rng m).2.2 =
        (applyImmunizationDoses p₂ subjRef request_method d qty now₂ k i rng m).2.2 := by
  intro k
  induction k with
  | zero => intro i rng m; exact ⟨rfl, rfl, rfl⟩
  | succ n ih =>
    intro i rng m
    simp only [applyImmunizationDoses, List.map_cons]
    obtain ⟨h1, h2⟩ := create_immunization_nowInv (drawIdAndUrn rng request_method m).2.2
      p₁.id p₂.id (if qty > 1 ∧ d.days_ago.isSome then
        { d with days_ago := some (d.days_ago.getD 0 - i * 30),
                 doseNumber := some (i + 1) }
      else d) (some subjRef) (some (drawIdAndUrn rng request_method m).1) now₁ now₂ hid
    rw [h1, h2]
    obtain ⟨i1, i2, i3⟩ := ih (i + 1)
      (create_immunization (drawIdAndUrn rng request_method m).2.2 p₂.id
        (if qty > 1 ∧ d.days_ago.isSome then
          { d with days_ago := some (d.days_ago.getD 0 - i * 30),
                   doseNumber := some (i + 1) }
        else d) (some subjRef) (some (drawIdAndUrn rng request_method m).1) now₂).2
      (drawIdAndUrn rng request_method m).2.1
    rw [i1, i2, i3]
    exact ⟨rfl, rfl, rfl⟩

theorem applyImmunizations_nowInv (subjRef request_method : String)
    (p₁ p₂ : PatientR) (hid : p₁.id = p₂.id) (now₁ now₂ : Int) :
    ∀ (defs : List ImmunizationDef) (rng : SeededRandom) (m : Mapping),
      (applyImmunizations p₁ subjRef request_method now₁ defs rng m).1.map
          Resource.timeErase =
        (applyImmunizations p₂ subjRef request_method now₂ defs rng m).1.map
          Resource.timeErase ∧
      (applyImmunizations p₁ subjRef request_method now₁ defs rng m).2.1 =
        (applyImmunizations p₂ subjRef request_method now₂ defs rng m).2.1 ∧
      (applyImmunizations p₁ subjRef request_method now₁ defs rng m).2.2 =
        (applyImmunizations p₂ subjRef request_method now₂ defs rng m).2.2 := by
  intro defs
  induction defs with
  | nil => intro rng m; exact ⟨rfl, rfl, rfl⟩
  | cons d rest ih =>
    intro rng m
    simp only [applyImmunizations, List.map_append]
    obtain ⟨o1, o2, o3⟩ := applyImmunizationDoses_nowInv subjRef request_method p₁ p₂ hid
      d (d.qty.getD 1) now₁ now₂ (d.qty.getD 1).toNat 0 rng m
    rw [o1, o2, o3]
    obtain ⟨i1, i2, i3⟩ := ih
      (applyImmunizationDoses p₂ subjRef request_method d (d.qty.getD 1) now₂
        (d.qty.getD 1).toNat 0 rng m).2.2
      (applyImmunizationDoses p₂ subjRef request_method d (d.qty.getD 1) now₂
        (d.qty.getD 1).toNat 0 rng m).2.1
    rw [i1, i2, i3]
    exact ⟨rfl, rfl, rfl⟩

theorem applyEncounterReps_nowInv (subjRef request_method : String)
    (p₁ p₂ : PatientR) (hid : p₁.id = p₂.id) (d : EncounterDef)
    (qty spread : Int) (now₁ now₂ : Int) :
    ∀ (k : Nat) (i : Int) (rng : SeededRandom) (m : Mapping),
      (applyEncounterReps p₁ subjRef request_method d qty spread now₁ k i rng m).1.map
          Resource.timeErase =
        (applyEncounterReps p₂ subjRef request_method d qty spread now₂ k i rng m).1.map
          Resource.timeErase ∧
      (applyEncounterReps p₁ subjRef request_method d qty spread now₁ k i rng m).2.1 =
        (applyEncounterReps p₂ subjRef request_method d qty spread now₂ k i rng m).2.1 ∧
      (applyEncounterReps p₁ subjRef request_method d qty spread now₁ k i rng m).2.2 =
        (applyEncounterReps p₂ subjRef request_method d qty spread now₂ k i rng m).2.2 := by
  intro k
  induction k with
  | zero => intro i rng m; exact ⟨rfl, rfl, rfl⟩
  | succ n ih =>
    intro i rng m
    simp only [applyEncounterReps, List.map_cons]
    obtain ⟨h1, h2⟩ := create_encounter_nowInv (drawIdAndUrn rng request_method m).2.2
      p₁.id p₂.id (if qty > 1 ∧ spread > 0 then
        { d with days_ago := some (d.days_ago.getD 0 + i * ((spread * 30).fdiv qty)) }
      else d) (some subjRef) (some (drawIdAndUrn rng request_method m).1) now₁ now₂ hid
    rw [h1, h2]
    obtain ⟨i1, i2, i3⟩ := ih (i + 1)
      (create_encounter (drawIdAndUrn rng request_method m).2.2 p₂.id
        (if qty > 1 ∧ spread > 0 then
          { d with days_ago := some (d.days_ago.getD 0 + i * ((spread * 30).fdiv qty)) }
        else d) (some subjRef) (some (drawIdAndUrn rng request_method m).1) now₂).2
      (drawIdAndUrn rng request_method m).2.1
    rw [i1, i2, i3]
    exact ⟨rfl, rfl, rfl⟩

theorem applyEncounters_nowInv (subjRef request_method : String)
    (p₁ p₂ : PatientR) (hid : p₁.id = p₂.id) (now₁ now₂ : Int) :
    ∀ (defs : List EncounterDef) (rng : SeededRandom) (m : Mapping),
      (applyEncounters p₁ subjRef request_method now₁ defs rng m).1.map
          Resource.timeErase =
        (applyEncounters p₂ subjRef request_method now₂ defs rng m).1.map
          Resource.timeErase ∧
      (applyEncounters p₁ subjRef request_method now₁ defs rng m).2.1 =
        (applyEncounters p₂ subjRef request_method now₂ defs rng m).2.1 ∧
      (applyEncounters p₁ subjRef request_method now₁ defs rng m).2.2 =
        (applyEncounters p₂ subjRef request_method now₂ defs rng m).2.2 := by
  intro defs
  induction defs with
  | nil => intro rng m; exact ⟨rfl, rfl, rfl⟩
  | cons d rest ih =>
    intro rng m
    simp only [applyEncounters, List.map_append]
    obtain ⟨o1, o2, o3⟩ := applyEncounterReps_nowInv subjRef request_method p₁ p₂ hid
      d (d.qty.getD 1) (d.spread_months.getD 12) now₁ now₂ (d.qty.getD 1).toNat 0 rng m
    rw [o1, o2, o3]
    obtain ⟨i1, i2, i3⟩ := ih
      (applyEncounterReps p₂ subjRef request_method d (d.qty.getD 1)
        (d.spread_months.getD 12) now₂ (d.qty.getD 1).toNat 0 rng m).2.2
      (applyEncounterReps p₂ subjRef request_method d (d.qty.getD 1)
        (d.spread_months.getD 12) now₂ (d.qty.getD 1).toNat 0 rng m).2.1
    rw [i1, i2, i3]
    exact ⟨rfl, rfl, rfl⟩

theorem create_symmetrical_related_persons_nowInv (rng : SeededRandom)
    (patient_ref : String) (related_def : RelatedDef) (request_method : String)
    (m : Mapping) (p₁ p₂ : PatientR) (hpe : p₁.erase = p₂.erase) :
    Except.map eraseOut3
        (create_symmetrical_related_persons rng p₁ patient_ref related_def
          request_method m) =
      Except.map eraseOut3
        (create_symmetrical_related_persons rng p₂ patient_ref related_def
          request_method m) := by
  have hid : p₁.id = p₂.id := by
    simpa [PatientR.erase] using congrArg PatientR.id hpe
  have hfam : p₁.nameFamily = p₂.nameFamily := by
    simpa [PatientR.erase] using congrArg PatientR.nameFamily hpe
  have hgiv : p₁.nameGiven = p₂.nameGiven := by
    simpa [PatientR.erase] using congrArg PatientR.nameGiven hpe
  have hgen : p₁.gender = p₂.gender := by
    simpa [PatientR.erase] using congrArg PatientR.gender hpe
  simp only [create_symmetrical_related_persons]
  rw [hid, hfam, hgiv, hgen]
  cases hrel : related_def.relationship with
  | none => simp [create_related_person, hrel]
  | some rel =>
    simp [create_related_person, hrel, eraseOut3, Except.map, List.map,
      Resource.timeErase]

theorem applyRelatedPersons_nowInv (patient_ref request_method : String)
    (p₁ p₂ : PatientR) (hpe : p₁.erase = p₂.erase) :
    ∀ (defs : List RelatedDef) (rng : SeededRandom) (m : Mapping),
      Except.map eraseOut3
          (applyRelatedPersons p₁ patient_ref request_method defs rng m) =
        Except.map eraseOut3
          (applyRelatedPersons p₂ patient_ref request_method defs rng m) := by
  intro defs
  induction defs with
  | nil => intro rng m; rfl
  | cons d rest ih =>
    intro rng m
    have h := create_symmetrical_related_persons_nowInv rng patient_ref d
      request_method m p₁ p₂ hpe
    simp only [applyRelatedPersons]
    cases h₁ : create_symmetrical_related_persons rng p₁ patient_ref d
        request_method m with
    | error e =>
      cases h₂ : create_symmetrical_related_persons rng p₂ patient_ref d
          request_method m with
      | error e₂ =>
        rw [h₁, h₂] at h
        simp [Except.map] at h ⊢
        exact h
      | ok o₂ =>
        rw [h₁, h₂] at h
        simp [Except.map] at h
    | ok o₁ =>
      cases h₂ : create_symmetrical_related_persons rng p₂ patient_ref d
          request_method m with
      | error e₂ =>
        rw [h₁, h₂] at h
        simp [Except.map] at h
      | ok o₂ =>
        rw [h₁, h₂] at h
        simp only [Except.map, Except.ok.injEq, eraseOut3, Prod.mk.injEq] at h
        obtain ⟨hl, hm2, hr2⟩ := h
        dsimp only
        rw [hm2, hr2]
        have ihh := ih o₂.2.2 o₂.2.1
        cases g₁ : applyRelatedPersons p₁ patient_ref request_method rest
            o₂.2.2 o₂.2.1 with
        | error e =>
          cases g₂ : applyRelatedPersons p₂ patient_ref request_method rest
              o₂.2.2 o₂.2.1 with
          | error e₂ =>
            rw [g₁, g₂] at ihh
            simp [Except.map] at ihh ⊢
            exact ihh
          | ok r₂ =>
            rw [g₁, g₂] at ihh
            simp [Except.map] at ihh
        | ok r₁ =>
          cases g₂ : applyRelatedPersons p₂ patient_ref request_method rest
              o₂.2.2 o₂.2.1 with
          | error e₂ =>
            rw [g₁, g₂] at ihh
            simp [Except.map] at ihh
          | ok r₂ =>
            rw [g₁, g₂] at ihh
            simp only [Except.map, Except.ok.injEq, eraseOut3, Prod.mk.injEq] at ihh
            obtain ⟨il, im, ir⟩ := ihh
            simp only [Except.map, Except.ok.injEq, eraseOut3, Prod.mk.injEq,
              List.map_append]
            exact ⟨by rw [hl, il], by rw [im], by rw [ir]⟩

theorem applyReportObs_nowInv (subjRef request_method : String) (p₁ p₂ : PatientR)
    (hid : p₁.id = p₂.id) (d : ObservationDef) (now₁ now₂ : Int) :
    ∀ (occs₁ occs₂ : List Int), occs₁.length = occs₂.length →
      ∀ (rng : SeededRandom) (m : Mapping),
      (applyReportObs p₁ subjRef request_method d now₁ occs₁ rng m).1.1.map
          Resource.timeErase =
        (applyReportObs p₂ subjRef request_method d now₂ occs₂ rng m).1.1.map
          Resource.timeErase ∧
      (applyReportObs p₁ subjRef request_method d now₁ occs₁ rng m).1.2 =
        (applyReportObs p₂ subjRef request_method d now₂ occs₂ rng m).1.2 ∧
      (applyReportObs p₁ subjRef request_method d now₁ occs₁ rng m).2.1 =
        (applyReportObs p₂ subjRef request_method d now₂ occs₂ rng m).2.1 ∧
      (applyReportObs p₁ subjRef request_method d now₁ occs₁ rng m).2.2 =
        (applyReportObs p₂ subjRef request_method d now₂ occs₂ rng m).2.2 := by
  intro occs₁
  induction occs₁ with
  | nil =>
    intro occs₂ hlen rng m
    cases occs₂ with
    | nil => exact ⟨rfl, rfl, rfl, rfl⟩
    | cons b t => simp at hlen
  | cons a t ih =>
    intro occs₂ hlen rng m
    cases occs₂ with
    | nil => simp at hlen
    | cons b t₂ =>
      simp only [applyReportObs, List.map_cons]
      by_cases hpost : request_method = "POST"
      · simp only [if_pos hpost]
        obtain ⟨h1, h2⟩ := create_observation_nowInv rng.uuid.2.uuid.2 p₁.id p₂.id d
          (some subjRef) (some rng.uuid.1) a b now₁ now₂ hid
        rw [h1, h2]
        obtain ⟨i1, i2, i3, i4⟩ := ih t₂ (by simpa using hlen)
          (create_observation rng.uuid.2.uuid.2 p₂.id d (some subjRef)
            (some rng.uuid.1) (some b) now₂).2
          (mapInsert m rng.uuid.1 rng.uuid.2.uuid.1)
        rw [i1, i2, i3, i4]
        exact ⟨rfl, rfl, rfl, rfl⟩
      · simp only [if_neg hpost]
        obtain ⟨h1, h2⟩ := create_observation_nowInv rng.uuid.2 p₁.id p₂.id d
          (some subjRef) (some rng.uuid.1) a b now₁ now₂ hid
        rw [h1, h2]
        obtain ⟨i1, i2, i3, i4⟩ := ih t₂ (by simpa using hlen)
          (create_observation rng.uuid.2 p₂.id d (some subjRef)
            (some rng.uuid.1) (some b) now₂).2 m
        rw [i1, i2, i3, i4]
        exact ⟨rfl, rfl, rfl, rfl⟩

theorem applyReportObsDefs_nowInv (subjRef request_method : String)
    (p₁ p₂ : PatientR) (hid : p₁.id = p₂.id) (now₁ now₂ : Int) :
    ∀ (defs : List ObservationDef) (rng : SeededRandom) (m : Mapping),
      (applyReportObsDefs p₁ subjRef request_method now₁ defs rng m).1.1.map
          Resource.timeErase =
        (applyReportObsDefs p₂ subjRef request_method now₂ defs rng m).1.1.map
          Resource.timeErase ∧
      (applyReportObsDefs p₁ subjRef request_method now₁ defs rng m).1.2 =
        (applyReportObsDefs p₂ subjRef request_method now₂ defs rng m).1.2 ∧
      (applyReportObsDefs p₁ subjRef request_method now₁ defs rng m).2.1 =
        (applyReportObsDefs p₂ subjRef request_method now₂ defs rng m).2.1 ∧
      (applyReportObsDefs p₁ subjRef request_method now₁ defs rng m).2.2 =
        (applyReportObsDefs p₂ subjRef request_method now₂ defs rng m).2.2 := by
  intro defs
  induction defs with
  | nil => intro rng m; exact ⟨rfl, rfl, rfl, rfl⟩
  | cons d rest ih =>
    intro rng m
    simp only [applyReportObsDefs, List.map_append]
    obtain ⟨hg1, hg2⟩ := generate_time_points_nowInv rng d.times now₁ now₂
    rw [hg1]
    obtain ⟨o1, o2, o3, o4⟩ := applyReportObs_nowInv subjRef request_method p₁ p₂ hid
      d now₁ now₂ (generate_time_points rng d.times now₁).1
      (generate_time_points rng d.times now₂).1 hg2
      (generate_time_points rng d.times now₂).2 m
    rw [o1, o2, o3, o4]
    obtain ⟨i1, i2, i3, i4⟩ := ih
      (applyReportObs p₂ subjRef request_method d now₂
        (generate_time_points rng d.times now₂).1
        (generate_time_points rng d.times now₂).2 m).2.2
      (applyReportObs p₂ subjRef request_method d now₂
        (generate_time_points rng d.times now₂).1
        (generate_time_points rng d.times now₂).2 m).2.1
    rw [i1, i2, i3, i4]
    exact ⟨rfl, rfl, rfl, rfl⟩

theorem create_diagnostic_report_with_observations_nowInv (rng : SeededRandom)
    (patient_ref request_method : String) (d : ReportDef) (m : Mapping)
    (p₁ p₂ : PatientR) (hid : p₁.id = p₂.id) (now₁ now₂ : Int) :
    (create_diagnostic_report_with_observations rng p₁ patient_ref d
        request_method m now₁).1.map Resource.timeErase =
      (create_diagnostic_report_with_observations rng p₂ patient_ref d
        request_method m now₂).1.map Resource.timeErase ∧
    (create_diagnostic_report_with_observations rng p₁ patient_ref d
        request_method m now₁).2.1 =
      (create_diagnostic_report_with_observations rng p₂ patient_ref d
        request_method m now₂).2.1 ∧
    (create_diagnostic_report_with_observations rng p₁ patient_ref d
        request_method m now₁).2.2 =
      (create_diagnostic_report_with_observations rng p₂ patient_ref d
        request_method m now₂).2.2 := by
  simp only [create_diagnostic_report_with_observations, List.map_append,
    List.map_cons, List.map_nil]
  obtain ⟨o1, o2, o3, o4⟩ := applyReportObsDefs_nowInv
    (subjectRefStr patient_ref request_method) request_method p₁ p₂ hid now₁ now₂
    d.observations rng m
  rw [o1, o2, o3, o4]
  obtain ⟨h1, h2⟩ := create_diagnostic_report_nowInv
    (drawIdAndUrn (applyReportObsDefs p₂ (subjectRefStr patient_ref request_method)
        request_method now₂ d.observations rng m).2.2 request_method
      (applyReportObsDefs p₂ (subjectRefStr patient_ref request_method)
        request_method now₂ d.observations rng m).2.1).2.2
    p₁.id p₂.id d
    (applyReportObsDefs p₂ (subjectRefStr patient_ref request_method)
      request_method now₂ d.observations rng m).1.2
    (some (subjectRefStr patient_ref request_method))
    (some (drawIdAndUrn (applyReportObsDefs p₂ (subjectRefStr patient_ref
        request_method) request_method now₂ d.observations rng m).2.2 request_method
      (applyReportObsDefs p₂ (subjectRefStr patient_ref request_method)
        request_method now₂ d.observations rng m).2.1).1)
    now₁ now₂ hid
  rw [h1, h2]
  exact ⟨rfl, rfl, rfl⟩

theorem applyReports_nowInv (patient_ref request_method : String)
    (p₁ p₂ : PatientR) (hid : p₁.id = p₂.id) (now₁ now₂ : Int) :
    ∀ (defs : List ReportDef) (rng : SeededRandom) (m : Mapping),
      (applyReports p₁ patient_ref request_method now₁ defs rng m).1.map
          Resource.timeErase =
        (applyReports p₂ patient_ref request_method now₂ defs rng m).1.map
          Resource.timeErase ∧
      (applyReports p₁ patient_ref request_method now₁ defs rng m).2.1 =
        (applyReports p₂ patient_ref request_method now₂ defs rng m).2.1 ∧
      (applyReports p₁ patient_ref request_method now₁ defs rng m).2.2 =
        (applyReports p₂ patient_ref request_method now₂ defs rng m).2.2 := by
  intro defs
  induction defs with
  | nil => intro rng m; exact ⟨rfl, rfl, rfl⟩
  | cons d rest ih =>
    intro rng m
    simp only [applyReports, List.map_append]
    obtain ⟨o1, o2, o3⟩ := create_diagnostic_report_with_observations_nowInv rng
      patient_ref request_method d m p₁ p₂ hid now₁ now₂
    rw [o1, o2, o3]
    obtain ⟨i1, i2, i3⟩ := ih
      (create_diagnostic_report_with_observations rng p₂ patient_ref d
        request_method m now₂).2.2
      (create_diagnostic_report_with_observations rng p₂ patient_ref d
        request_method m now₂).2.1
    rw [i1, i2, i3]
    exact ⟨rfl, rfl, rfl⟩

theorem apply_rule_nowInv (rng : SeededRandom) (rule : Rule)
    (patient_ref request_method : String) (p₁ p₂ : PatientR)
    (hpe : p₁.erase = p₂.erase) (now₁ now₂ : Int) :
    Except.map eraseOut3 (apply_rule rng rule p₁ patient_ref request_method now₁) =
      Except.map eraseOut3 (apply_rule rng rule p₂ patient_ref request_method now₂) := by
  have hid : p₁.id = p₂.id := by
    simpa [PatientR.erase] using congrArg PatientR.id hpe
  simp only [apply_rule]
  obtain ⟨c1, c2, c3⟩ := applyConditions_nowInv
    (subjectRefStr patient_ref request_method) request_method p₁ p₂ hid now₁ now₂
    rule.act.add_conditions rng []
  rw [c2, c3]
  obtain ⟨o1, o2, o3⟩ := applyObservations_nowInv
    (subjectRefStr patient_ref request_method) request_method p₁ p₂ hid now₁ now₂
    rule.act.add_observations
    (applyConditions p₂ (subjectRefStr patient_ref request_method) request_method
      now₂ rule.act.add_conditions rng []).2.2
    (applyConditions p₂ (subjectRefStr patient_ref request_method) request_method
      now₂ rule.act.add_conditions rng []).2.1
  rw [o2, o3]
  obtain ⟨m1, m2, m3⟩ := applyMeds_idInv
    (subjectRefStr patient_ref request_method) request_method p₁ p₂ hid
    rule.act.meds
    (applyObservations p₂ (subjectRefStr patient_ref request_method) request_method
      now₂ rule.act.add_observations
      (applyConditions p₂ (subjectRefStr patient_ref request_method) request_method
        now₂ rule.act.add_conditions rng []).2.2
      (applyConditions p₂ (subjectRefStr patient_ref request_method) request_method
        now₂ rule.act.add_conditions rng []).2.1).2.2
    (applyObservations p₂ (subjectRefStr patient_ref request_method) request_method
      now₂ rule.act.add_observations
      (applyConditions p₂ (subjectRefStr patient_ref request_method) request_method
        now₂ rule.act.add_conditions rng []).2.2
      (applyConditions p₂ (subjectRefStr patient_ref request_method) request_method
        now₂ rule.act.add_conditions rng []).2.1).2.1
  rw [m2, m3]
  generalize hS : (applyMeds p₂ (subjectRefStr patient_ref request_method)
    request_method rule.act.meds
    (applyObservations p₂ (subjectRefStr patient_ref request_method) request_method
      now₂ rule.act.add_observations
      (applyConditions p₂ (subjectRefStr patient_ref request_method) request_method
        now₂ rule.act.add_conditions rng []).2.2
      (applyConditions p₂ (subjectRefStr patient_ref request_method) request_method
        now₂ rule.act.add_conditions rng []).2.1).2.2
    (applyObservations p₂ (subjectRefStr patient_ref request_method) request_method
      now₂ rule.act.add_observations
      (applyConditions p₂ (subjectRefStr patient_ref request_method) request_method
        now₂ rule.act.add_conditions rng []).2.2
      (applyConditions p₂ (subjectRefStr patient_ref request_method) request_method
        now₂ rule.act.add_conditions rng []).2.1).2.1) = S
  have hrel := applyRelatedPersons_nowInv patient_ref request_method p₁ p₂ hpe
    rule.act.related_persons S.2.2 S.2.1
  cases g₁ : applyRelatedPersons p₁ patient_ref request_method
      rule.act.related_persons S.2.2 S.2.1 with
  | error e =>
    cases g₂ : applyRelatedPersons p₂ patient_ref request_method
        rule.act.related_persons S.2.2 S.2.1 with
    | error e₂ =>
      rw [g₁, g₂] at hrel
      simp [Except.map] at hrel ⊢
      exact hrel
    | ok rel₂ =>
      rw [g₁, g₂] at hrel
      simp [Except.map] at hrel
  | ok rel₁ =>
    cases g₂ : applyRelatedPersons p₂ patient_ref request_method
        rule.act.related_persons S.2.2 S.2.1 with
    | error e₂ =>
      rw [g₁, g₂] at hrel
      simp [Except.map] at hrel
    | ok rel₂ =>
      rw [g₁, g₂] at hrel
      simp only [Except.map, Except.ok.injEq, eraseOut3, Prod.mk.injEq] at hrel
      obtain ⟨hl, hm, hr⟩ := hrel
      dsimp only
      rw [hm, hr]
      obtain ⟨rp1, rp2, rp3⟩ := applyReports_nowInv patient_ref request_method
        p₁ p₂ hid now₁ now₂ rule.act.diagnostic_reports rel₂.2.2 rel₂.2.1
      rw [rp2, rp3]
      obtain ⟨im1, im2, im3⟩ := applyImmunizations_nowInv
        (subjectRefStr patient_ref request_method) request_method p₁ p₂ hid now₁ now₂
        rule.act.immunizations
        (applyReports p₂ patient_ref request_method now₂
          rule.act.diagnostic_reports rel₂.2.2 rel₂.2.1).2.2
        (applyReports p₂ patient_ref request_method now₂
          rule.act.diagnostic_reports rel₂.2.2 rel₂.2.1).2.1
      rw [im2, im3]
      obtain ⟨cv1, cv2, cv3⟩ := applyCoverage_idInv
        (subjectRefStr patient_ref request_method) request_method p₁ p₂ hid
        rule.act.coverage
        (applyImmunizations p₂ (subjectRefStr patient_ref request_method)
          request_method now₂ rule.act.immunizations
          (applyReports p₂ patient_ref request_method now₂
            rule.act.diagnostic_reports rel₂.2.2 rel₂.2.1).2.2
          (applyReports p₂ patient_ref request_method now₂
            rule.act.diagnostic_reports rel₂.2.2 rel₂.2.1).2.1).2.2
        (applyImmunizations p₂ (subjectRefStr patient_ref request_method)
          request_method now₂ rule.act.immunizations
          (applyReports p₂ patient_ref request_method now₂
            rule.act.diagnostic_reports rel₂.2.2 rel₂.2.1).2.2
          (applyReports p₂ patient_ref request_method now₂
            rule.act.diagnostic_reports rel₂.2.2 rel₂.2.1).2.1).2.1
      rw [cv2, cv3]
      generalize hT : (applyCoverage p₂ (subjectRefStr patient_ref request_method)
        request_method rule.act.coverage
        (applyImmunizations p₂ (subjectRefStr patient_ref request_method)
          request_method now₂ rule.act.immunizations
          (applyReports p₂ patient_ref request_method now₂
            rule.act.diagnostic_reports rel₂.2.2 rel₂.2.1).2.2
          (applyReports p₂ patient_ref request_method now₂
            rule.act.diagnostic_reports rel₂.2.2 rel₂.2.1).2.1).2.2
        (applyImmunizations p₂ (subjectRefStr patient_ref request_method)
          request_method now₂ rule.act.immunizations
          (applyReports p₂ patient_ref request_method now₂
            rule.act.diagnostic_reports rel₂.2.2 rel₂.2.1).2.2
          (applyReports p₂ patient_ref request_method now₂
            rule.act.diagnostic_reports rel₂.2.2 rel₂.2.1).2.1).2.1) = T
      obtain ⟨en1, en2, en3⟩ := applyEncounters_nowInv
        (subjectRefStr patient_ref request_method) request_method p₁ p₂ hid now₁ now₂
        rule.act.encounters T.2.2 T.2.1
      rw [en2, en3]
      simp only [Except.map, Except.ok.injEq, eraseOut3, Prod.mk.injEq,
        List.map_append]
      rw [c1, o1, m1, hS, hl, rp1, im1, cv1, hT, en1]
      exact ⟨rfl, trivial⟩

theorem generate_demographics_nowInv (rng : SeededRandom) (demo : DemoConfig)
    (now₁ now₂ : Int) :
    (generate_demographics rng demo now₁).1.erase =
      (generate_demographics rng demo now₂).1.erase ∧
    (generate_demographics rng demo now₁).2 =
      (generate_demographics rng demo now₂).2 := by
  simp only [generate_demographics, Demographics.erase]
  constructor <;> trivial

theorem filter_erase_eq (pred : Resource → Bool)
    (hpred : ∀ r, pred r.timeErase = pred r) :
    ∀ (l₁ l₂ : List Resource),
      l₁.map Resource.timeErase = l₂.map Resource.timeErase →
      (l₁.filter pred).map Resource.timeErase =
        (l₂.filter pred).map Resource.timeErase
  | [], [], _ => rfl
  | [], _ :: _, h => by simp at h
  | _ :: _, [], h => by simp at h
  | a :: t₁, b :: t₂, h => by
    simp only [List.map_cons, List.cons.injEq] at h
    obtain ⟨hab, ht⟩ := h
    have hpab : pred a = pred b := by rw [← hpred a, hab, hpred b]
    simp only [List.filter_cons, hpab]
    cases hq : pred b with
    | false =>
      simp only [Bool.false_eq_true, if_false]
      exact filter_erase_eq pred hpred t₁ t₂ ht
    | true =>
      simp only [if_true, List.map_cons, hab,
        filter_erase_eq pred hpred t₁ t₂ ht]

theorem any_erase_eq (pred : Resource → Bool)
    (hpred : ∀ r, pred r.timeErase = pred r) :
    ∀ (l₁ l₂ : List Resource),
      l₁.map Resource.timeErase = l₂.map Resource.timeErase →
      l₁.any pred = l₂.any pred
  | [], [], _ => rfl
  | [], _ :: _, h => by simp at h
  | _ :: _, [], h => by simp at h
  | a :: t₁, b :: t₂, h => by
    simp only [List.map_cons, List.cons.injEq] at h
    obtain ⟨hab, ht⟩ := h
    have hpab : pred a = pred b := by rw [← hpred a, hab, hpred b]
    simp only [List.any_cons, hpab, any_erase_eq pred hpred t₁ t₂ ht]

theorem find_erase_eq (pred : Resource → Bool)
    (hpred : ∀ r, pred r.timeErase = pred r) :
    ∀ (l₁ l₂ : List Resource),
      l₁.map Resource.timeErase = l₂.map Resource.timeErase →
      Option.map Resource.timeErase (l₁.find? pred) =
        Option.map Resource.timeErase (l₂.find? pred)
  | [], [], _ => rfl
  | [], _ :: _, h => by simp at h
  | _ :: _, [], h => by simp at h
  | a :: t₁, b :: t₂, h => by
    simp only [List.map_cons, List.cons.injEq] at h
    obtain ⟨hab, ht⟩ := h
    have hpab : pred a = pred b := by rw [← hpred a, hab, hpred b]
    simp only [List.find?_cons, hpab]
    cases hq : pred b with
    | false => exact find_erase_eq pred hpred t₁ t₂ ht
    | true => show some a.timeErase = some b.timeErase; rw [hab]

theorem filter_resources_erase (f : List String) (l₁ l₂ : List Resource)
    (h : l₁.map Resource.timeErase = l₂.map Resource.timeErase) :
    (filter_resources f l₁).map Resource.timeErase =
      (filter_resources f l₂).map Resource.timeErase := by
  simp only [filter_resources]
  by_cases hf : f = []
  · rw [if_pos hf, if_pos hf]; exact h
  · rw [if_neg hf, if_neg hf]
    have hfil := filter_erase_eq (fun r => f.contains r.rtype)
      (fun r => by simp [rtype_timeErase]) l₁ l₂ h
    have hie : (l₁.filter (fun r => f.contains r.rtype)).isEmpty =
        (l₂.filter (fun r => f.contains r.rtype)).isEmpty := by
      rcases h₁ : l₁.filter (fun r => f.contains r.rtype) with _ | ⟨a, t⟩ <;>
        rcases h₂ : l₂.filter (fun r => f.contains r.rtype) with _ | ⟨b, t₂⟩ <;>
        rw [h₁, h₂] at hfil ⊢ <;> first | rfl | simp at hfil
    have hany := any_erase_eq (fun r => r.rtype == "Patient")
      (fun r => by simp [rtype_timeErase])
      (l₁.filter (fun r => f.contains r.rtype))
      (l₂.filter (fun r => f.contains r.rtype)) hfil
    have hfind := find_erase_eq (fun r => r.rtype == "Patient")
      (fun r => by simp [rtype_timeErase]) l₁ l₂ h
    rw [hie, hany]
    cases hcond : (!(l₂.filter (fun r => f.contains r.rtype)).isEmpty &&
        !(l₂.filter (fun r => f.contains r.rtype)).any
          (fun r => r.rtype == "Patient")) with
    | false => simp only [if_false, Bool.false_eq_true]; exact hfil
    | true =>
      simp only [if_true]
      cases g₁ : l₁.find? (fun r => r.rtype == "Patient") with
      | none =>
        cases g₂ : l₂.find? (fun r => r.rtype == "Patient") with
        | none => exact hfil
        | some q₂ => rw [g₁, g₂] at hfind; simp at hfind
      | some q₁ =>
        cases g₂ : l₂.find? (fun r => r.rtype == "Patient") with
        | none => rw [g₁, g₂] at hfind; simp at hfind
        | some q₂ =>
          rw [g₁, g₂] at hfind
          simp at hfind
          simp only [List.map_cons, hfind, hfil]

theorem rulesLoopSingle_nowInv (patient_ref request_method : String)
    (p₁ p₂ : PatientR) (hpe : p₁.erase = p₂.erase) (now₁ now₂ : Int) :
    ∀ (rules : List Rule) (rng : SeededRandom) (m : Mapping),
      Except.map eraseOut3
          (rulesLoopSingle p₁ patient_ref request_method now₁ rules rng m) =
        Except.map eraseOut3
          (rulesLoopSingle p₂ patient_ref request_method now₂ rules rng m) := by
  intro rules
  induction rules with
  | nil => intro rng m; rfl
  | cons rule rest ih =>
    intro rng m
    have h := apply_rule_nowInv rng rule patient_ref request_method p₁ p₂ hpe now₁ now₂
    simp only [rulesLoopSingle]
    cases h₁ : apply_rule rng rule p₁ patient_ref request_method now₁ with
    | error e =>
      cases h₂ : apply_rule rng rule p₂ patient_ref request_method now₂ with
      | error e₂ =>
        rw [h₁, h₂] at h
        simp [Except.map] at h ⊢
        exact h
      | ok o₂ =>
        rw [h₁, h₂] at h
        simp [Except.map] at h
    | ok o₁ =>
      cases h₂ : apply_rule rng rule p₂ patient_ref request_method now₂ with
      | error e₂ =>
        rw [h₁, h₂] at h
        simp [Except.map] at h
      | ok o₂ =>
        rw [h₁, h₂] at h
        simp only [Except.map, Except.ok.injEq, eraseOut3, Prod.mk.injEq] at h
        obtain ⟨hl, hm, hr⟩ := h
        dsimp only
        rw [hm, hr]
        have ihh := ih o₂.2.2 (mapUpdate m o₂.2.1)
        cases g₁ : rulesLoopSingle p₁ patient_ref request_method now₁ rest o₂.2.2
            (mapUpdate m o₂.2.1) with
        | error e =>
          cases g₂ : rulesLoopSingle p₂ patient_ref request_method now₂ rest o₂.2.2
              (mapUpdate m o₂.2.1) with
          | error e₂ =>
            rw [g₁, g₂] at ihh
            simp [Except.map] at ihh ⊢
            exact ihh
          | ok r₂ =>
            rw [g₁, g₂] at ihh
            simp [Except.map] at ihh
        | ok r₁ =>
          cases g₂ : rulesLoopSingle p₂ patient_ref request_method now₂ rest o₂.2.2
              (mapUpdate m o₂.2.1) with
          | error e₂ =>
            rw [g₁, g₂] at ihh
            simp [Except.map] at ihh
          | ok r₂ =>
            rw [g₁, g₂] at ihh
            simp only [Except.map, Except.ok.injEq, eraseOut3, Prod.mk.injEq] at ihh
            obtain ⟨il, im, ir⟩ := ihh
            simp only [Except.map, Except.ok.injEq, eraseOut3, Prod.mk.injEq,
              List.map_append]
            exact ⟨by rw [hl, il], by rw [im], by rw [ir]⟩

theorem rulesLoopCohort_nowInv (patient_ref request_method : String)
    (p₁ p₂ : PatientR) (hpe : p₁.erase = p₂.erase)
    (demo₁ demo₂ : Demographics) (hde : demo₁.erase = demo₂.erase)
    (now₁ now₂ : Int) :
    ∀ (rules : List Rule) (rng : SeededRandom) (m : Mapping),
      Except.map eraseOut3
          (rulesLoopCohort p₁ patient_ref request_method now₁ demo₁ rules rng m) =
        Except.map eraseOut3
          (rulesLoopCohort p₂ patient_ref request_method now₂ demo₂ rules rng m) := by
  have hage : demo₁.age = demo₂.age := by
    simpa [Demographics.erase] using congrArg Demographics.age hde
  intro rules
  induction rules with
  | nil => intro rng m; rfl
  | cons rule rest ih =>
    intro rng m
    simp only [rulesLoopCohort]
    rw [hage]
    cases hev : evaluate_rule_condition rule.whenCondition (some demo₂.age) with
    | error e => rfl
    | ok bv =>
      cases bv with
      | false => exact ih rng m
      | true =>
        have h := apply_rule_nowInv rng rule patient_ref request_method p₁ p₂ hpe
          now₁ now₂
        cases h₁ : apply_rule rng rule p₁ patient_ref request_method now₁ with
        | error e =>
          cases h₂ : apply_rule rng rule p₂ patient_ref request_method now₂ with
          | error e₂ =>
            rw [h₁, h₂] at h
            simp [Except.map] at h ⊢
            exact h
          | ok o₂ =>
            rw [h₁, h₂] at h
            simp [Except.map] at h
        | ok o₁ =>
          cases h₂ : apply_rule rng rule p₂ patient_ref request_method now₂ with
          | error e₂ =>
            rw [h₁, h₂] at h
            simp [Except.map] at h
          | ok o₂ =>
            rw [h₁, h₂] at h
            simp only [Except.map, Except.ok.injEq, eraseOut3, Prod.mk.injEq] at h
            obtain ⟨hl, hm, hr⟩ := h
            dsimp only
            rw [hm, hr]
            have ihh := ih o₂.2.2 (mapUpdate m o₂.2.1)
            cases g₁ : rulesLoopCohort p₁ patient_ref request_method now₁ demo₁ rest
                o₂.2.2 (mapUpdate m o₂.2.1) with
            | error e =>
              cases g₂ : rulesLoopCohort p₂ patient_ref request_method now₂ demo₂ rest
                  o₂.2.2 (mapUpdate m o₂.2.1) with
              | error e₂ =>
                rw [g₁, g₂] at ihh
                simp [Except.map] at ihh ⊢
                exact ihh
              | ok r₂ =>
                rw [g₁, g₂] at ihh
                simp [Except.map] at ihh
            | ok r₁ =>
              cases g₂ : rulesLoopCohort p₂ patient_ref request_method now₂ demo₂ rest
                  o₂.2.2 (mapUpdate m o₂.2.1) with
              | error e₂ =>
                rw [g₁, g₂] at ihh
                simp [Except.map] at ihh
              | ok r₂ =>
                rw [g₁, g₂] at ihh
                simp only [Except.map, Except.ok.injEq, eraseOut3, Prod.mk.injEq] at ihh
                obtain ⟨il, im, ir⟩ := ihh
                simp only [Except.map, Except.ok.injEq, eraseOut3, Prod.mk.injEq,
                  List.map_append]
                exact ⟨by rw [hl, il], by rw [im], by rw [ir]⟩

theorem generate_single_patient_nowInv (rng : SeededRandom) (profile : Profile)
    (request_method : String) (resource_filter : List String) (now₁ now₂ : Int) :
    Except.map eraseOut3
        (generate_single_patient rng profile request_method resource_filter now₁) =
      Except.map eraseOut3
        (generate_single_patient rng profile request_method resource_filter now₂) := by
  simp only [generate_single_patient]
  generalize hPU : (if request_method = "POST" then rng.uuid.2.uuid
    else (rng.uuid.1, rng.uuid.2)) = pu
  generalize hM : (if request_method = "POST" then [(rng.uuid.1, pu.1)]
    else ([] : Mapping)) = m₀
  generalize hPR : create_patient pu.2 profile.single_patient (some rng.uuid.1) = pr
  generalize hREF : (if request_method = "POST" then pu.1 else rng.uuid.1) = pref
  have h := rulesLoopSingle_nowInv pref request_method pr.1 pr.1 rfl now₁ now₂
    profile.rules pr.2 m₀
  cases h₁ : rulesLoopSingle pr.1 pref request_method now₁ profile.rules pr.2 m₀ with
  | error e =>
    cases h₂ : rulesLoopSingle pr.1 pref request_method now₂ profile.rules pr.2 m₀ with
    | error e₂ =>
      rw [h₁, h₂] at h
      simp [Except.map] at h ⊢
      exact h
    | ok o₂ =>
      rw [h₁, h₂] at h
      simp [Except.map] at h
  | ok o₁ =>
    cases h₂ : rulesLoopSingle pr.1 pref request_method now₂ profile.rules pr.2 m₀ with
    | error e₂ =>
      rw [h₁, h₂] at h
      simp [Except.map] at h
    | ok o₂ =>
      rw [h₁, h₂] at h
      simp only [Except.map, Except.ok.injEq, eraseOut3, Prod.mk.injEq] at h
      obtain ⟨hl, hm, hr⟩ := h
      dsimp only
      rw [hm, hr]
      have hres : (Resource.patient pr.1 :: o₁.1).map Resource.timeErase =
          (Resource.patient pr.1 :: o₂.1).map Resource.timeErase := by
        simp only [List.map_cons, hl]
      have hRR : (if resource_filter ≠ [] then
            filter_resources resource_filter (Resource.patient pr.1 :: o₁.1)
          else Resource.patient pr.1 :: o₁.1).map Resource.timeErase =
          (if resource_filter ≠ [] then
            filter_resources resource_filter (Resource.patient pr.1 :: o₂.1)
          else Resource.patient pr.1 :: o₂.1).map Resource.timeErase := by
        by_cases hrf : resource_filter = []
        · rw [if_neg (fun hn => hn hrf), if_neg (fun hn => hn hrf)]
          exact hres
        · rw [if_pos hrf, if_pos hrf]
          exact filter_resources_erase resource_filter _ _ hres
      exact congrArg (fun l => Except.ok (l, o₂.2.1, o₂.2.2)) hRR

theorem generate_patient_nowInv (rng : SeededRandom) (profile : Profile)
    (request_method : String) (resource_filter : List String) (now₁ now₂ : Int) :
    Except.map eraseOut3
        (generate_patient rng profile request_method resource_filter now₁) =
      Except.map eraseOut3
        (generate_patient rng profile request_method resource_filter now₂) := by
  simp only [generate_patient]
  obtain ⟨hde, hdr⟩ := generate_demographics_nowInv rng profile.demographics now₁ now₂
  rw [hdr]
  have hfam : (generate_demographics rng profile.demographics now₁).1.nameFamily =
      (generate_demographics rng profile.demographics now₂).1.nameFamily := by
    simpa [Demographics.erase] using congrArg Demographics.nameFamily hde
  have hgiv : (generate_demographics rng profile.demographics now₁).1.nameGiven =
      (generate_demographics rng profile.demographics now₂).1.nameGiven := by
    simpa [Demographics.erase] using congrArg Demographics.nameGiven hde
  have hgen : (generate_demographics rng profile.demographics now₁).1.gender =
      (generate_demographics rng profile.demographics now₂).1.gender := by
    simpa [Demographics.erase] using congrArg Demographics.gender hde
  generalize hG : (generate_demographics rng profile.demographics now₂).2 = g
  generalize hPU : (if request_method = "POST" then g.uuid.2.uuid
    else (g.uuid.1, g.uuid.2)) = pu
  generalize hM : (if request_method = "POST" then [(g.uuid.1, pu.1)]
    else ([] : Mapping)) = m₀
  generalize hREF : (if request_method = "POST" then pu.1 else g.uuid.1) = pref
  have hname : (demographicsToPatientDef
        (generate_demographics rng profile.demographics now₁).1).name =
      (demographicsToPatientDef
        (generate_demographics rng profile.demographics now₂).1).name := by
    simp only [demographicsToPatientDef, hfam, hgiv]
  have hgend : (demographicsToPatientDef
        (generate_demographics rng profile.demographics now₁).1).gender =
      (demographicsToPatientDef
        (generate_demographics rng profile.demographics now₂).1).gender := by
    simp only [demographicsToPatientDef, hgen]
  have hidn : (demographicsToPatientDef
        (generate_demographics rng profile.demographics now₁).1).identifiers =
      (demographicsToPatientDef
        (generate_demographics rng profile.demographics now₂).1).identifiers := rfl
  obtain ⟨hpe, hprng⟩ := create_patient_erase pu.2 (some g.uuid.1)
    (demographicsToPatientDef (generate_demographics rng profile.demographics now₁).1)
    (demographicsToPatientDef (generate_demographics rng profile.demographics now₂).1)
    hname hgend hidn
  generalize hC1 : create_patient pu.2 (demographicsToPatientDef
    (generate_demographics rng profile.demographics now₁).1) (some g.uuid.1) = pr₁
  generalize hC2 : create_patient pu.2 (demographicsToPatientDef
    (generate_demographics rng profile.demographics now₂).1) (some g.uuid.1) = pr₂
  rw [hC1, hC2] at hpe hprng
  rw [hprng]
  have h := rulesLoopCohort_nowInv pref request_method pr₁.1 pr₂.1 hpe
    (generate_demographics rng profile.demographics now₁).1
    (generate_demographics rng profile.demographics now₂).1 hde now₁ now₂
    profile.rules pr₂.2 m₀
  cases h₁ : rulesLoopCohort pr₁.1 pref request_method now₁
      (generate_demographics rng profile.demographics now₁).1 profile.rules
      pr₂.2 m₀ with
  | error e =>
    cases h₂ : rulesLoopCohort pr₂.1 pref request_method now₂
        (generate_demographics rng profile.demographics now₂).1 profile.rules
        pr₂.2 m₀ with
    | error e₂ =>
      rw [h₁, h₂] at h
      simp [Except.map] at h ⊢
      exact h
    | ok o₂ =>
      rw [h₁, h₂] at h
      simp [Except.map] at h
  | ok o₁ =>
    cases h₂ : rulesLoopCohort pr₂.1 pref request_method now₂
        (generate_demographics rng profile.demographics now₂).1 profile.rules
        pr₂.2 m₀ with
    | error e₂ =>
      rw [h₁, h₂] at h
      simp [Except.map] at h
    | ok o₂ =>
      rw [h₁, h₂] at h
      simp only [Except.map, Except.ok.injEq, eraseOut3, Prod.mk.injEq] at h
      obtain ⟨hl, hm, hr⟩ := h
      dsimp only
      rw [hm, hr]
      have hhead : (Resource.patient pr₁.1).timeErase =
          (Resource.patient pr₂.1).timeErase := by
        show Resource.patient pr₁.1.erase = Resource.patient pr₂.1.erase
        rw [hpe]
      have hres : (Resource.patient pr₁.1 :: o₁.1).map Resource.timeErase =
          (Resource.patient pr₂.1 :: o₂.1).map Resource.timeErase := by
        simp only [List.map_cons, hl, hhead]
      have hRR : (if resource_filter ≠ [] then
            filter_resources resource_filter (Resource.patient pr₁.1 :: o₁.1)
          else Resource.patient pr₁.1 :: o₁.1).map Resource.timeErase =
          (if resource_filter ≠ [] then
            filter_resources resource_filter (Resource.patient pr₂.1 :: o₂.1)
          else Resource.patient pr₂.1 :: o₂.1).map Resource.timeErase := by
        by_cases hrf : resource_filter = []
        · rw [if_neg (fun hn => hn hrf), if_neg (fun hn => hn hrf)]
          exact hres
        · rw [if_pos hrf, if_pos hrf]
          exact filter_resources_erase resource_filter _ _ hres
      exact congrArg (fun l => Except.ok (l, o₂.2.1, o₂.2.2)) hRR

theorem cohortLoop_nowInv (profile : Profile) (request_method : String)
    (resource_filter : List String) (now₁ now₂ : Int) :
    ∀ (k : Nat) (rng : SeededRandom),
      Except.map eraseOut3
          (cohortLoop profile request_method resource_filter now₁ k rng) =
        Except.map eraseOut3
          (cohortLoop profile request_method resource_filter now₂ k rng) := by
  intro k
  induction k with
  | zero => intro rng; rfl
  | succ n ih =>
    intro rng
    have h := generate_patient_nowInv rng profile request_method resource_filter
      now₁ now₂
    simp only [cohortLoop]
    cases h₁ : generate_patient rng profile request_method resource_filter now₁ with
    | error e =>
      cases h₂ : generate_patient rng profile request_method resource_filter now₂ with
      | error e₂ =>
        rw [h₁, h₂] at h
        simp [Except.map] at h ⊢
        exact h
      | ok o₂ =>
        rw [h₁, h₂] at h
        simp [Except.map] at h
    | ok o₁ =>
      cases h₂ : generate_patient rng profile request_method resource_filter now₂ with
      | error e₂ =>
        rw [h₁, h₂] at h
        simp [Except.map] at h
      | ok o₂ =>
        rw [h₁, h₂] at h
        simp only [Except.map, Except.ok.injEq, eraseOut3, Prod.mk.injEq] at h
        obtain ⟨hl, hm, hr⟩ := h
        dsimp only
        rw [hm, hr]
        have ihh := ih o₂.2.2
        cases g₁ : cohortLoop profile request_method resource_filter now₁ n
            o₂.2.2 with
        | error e =>
          cases g₂ : cohortLoop profile request_method resource_filter now₂ n
              o₂.2.2 with
          | error e₂ =>
            rw [g₁, g₂] at ihh
            simp [Except.map] at ihh ⊢
            exact ihh
          | ok r₂ =>
            rw [g₁, g₂] at ihh
            simp [Except.map] at ihh
        | ok r₁ =>
          cases g₂ : cohortLoop profile request_method resource_filter now₂ n
              o₂.2.2 with
          | error e₂ =>
            rw [g₁, g₂] at ihh
            simp [Except.map] at ihh
          | ok r₂ =>
            rw [g₁, g₂] at ihh
            simp only [Except.map, Except.ok.injEq, eraseOut3, Prod.mk.injEq] at ihh
            obtain ⟨il, im, ir⟩ := ihh
            simp only [Except.map, Except.ok.injEq, eraseOut3, Prod.mk.injEq,
              List.map_append]
            exact ⟨by rw [hl, il], by rw [im], by rw [ir]⟩

theorem isEmpty_map {α β : Type} (f : α → β) (xs : List α) :
    (xs.map f).isEmpty = xs.isEmpty := by
  cases xs <;> rfl

theorem chunkList_map {α β : Type} (f : α → β) (size : Nat) :
    ∀ (xs : List α), (chunkList size xs).map (List.map f) =
      chunkList size (xs.map f) := by
  intro xs
  induction xs using chunkList.induct size with
  | case1 xs h =>
    have h' : (xs.map f).isEmpty ∨ size = 0 := by
      rcases h with h | h
      · left; rw [isEmpty_map]; exact h
      · right; exact h
    conv_lhs => rw [chunkList]
    rw [dif_pos h]
    conv_rhs => rw [chunkList]
    rw [dif_pos h']
    rfl
  | case2 xs h ih =>
    have h' : ¬((xs.map f).isEmpty ∨ size = 0) := by
      rw [isEmpty_map]; exact h
    conv_lhs => rw [chunkList]
    rw [dif_neg h]
    conv_rhs => rw [chunkList]
    rw [dif_neg h']
    simp only [List.map_cons, List.map_take, List.map_drop, ih]

theorem map_proj_of_erase (M : Mapping) :
    ∀ (l₁ l₂ : List Resource),
      l₁.map Resource.timeErase = l₂.map Resource.timeErase →
      l₁.map (fun r => (r.rid, mget M r.rid)) =
        l₂.map (fun r => (r.rid, mget M r.rid))
  | [], [], _ => rfl
  | [], _ :: _, h => by simp at h
  | _ :: _, [], h => by simp at h
  | a :: t₁, b :: t₂, h => by
    simp only [List.map_cons, List.cons.injEq] at h ⊢
    obtain ⟨hab, ht⟩ := h
    have hr : a.rid = b.rid := by
      rw [← rid_timeErase a, hab, rid_timeErase b]
    exact ⟨by rw [hr], map_proj_of_erase M t₁ t₂ ht⟩

theorem map2_proj_of_erase (M : Mapping) :
    ∀ (c₁ c₂ : List (List Resource)),
      c₁.map (List.map Resource.timeErase) = c₂.map (List.map Resource.timeErase) →
      c₁.map (fun c => c.map (fun r => (r.rid, mget M r.rid))) =
        c₂.map (fun c => c.map (fun r => (r.rid, mget M r.rid)))
  | [], [], _ => rfl
  | [], _ :: _, h => by simp at h
  | _ :: _, [], h => by simp at h
  | a :: t₁, b :: t₂, h => by
    simp only [List.map_cons, List.cons.injEq] at h ⊢
    obtain ⟨hab, ht⟩ := h
    exact ⟨map_proj_of_erase M a b hab, map2_proj_of_erase M t₁ t₂ ht⟩

/-- **C3**: with a fixed seed (random stream) and fixed inputs, two runs of
`generate` at different wall-clock times agree on everything except the
"now"-derived timestamp fields: they fail identically or both succeed with
the same container structure, the same durable ids with the same transport
identity map entries in each container, and the same final identity map. -/
theorem generate_deterministic (profile : Profile) (count bundle_size : Nat)
    (request_method : String) (resource_filter : List String)
    (rng : SeededRandom) (now₁ now₂ : Int) :
    Except.map genProj
        (generate profile count bundle_size request_method resource_filter
          rng now₁) =
      Except.map genProj
        (generate profile count bundle_size request_method resource_filter
          rng now₂) := by
  simp only [generate]
  by_cases hmode : profile.mode.getD "cohort" = "single"
  · rw [if_pos hmode, if_pos hmode]
    have h := generate_single_patient_nowInv rng profile request_method
      resource_filter now₁ now₂
    cases h₁ : generate_single_patient rng profile request_method
        resource_filter now₁ with
    | error e =>
      cases h₂ : generate_single_patient rng profile request_method
          resource_filter now₂ with
      | error e₂ =>
        rw [h₁, h₂] at h
        simp [Except.map] at h ⊢
        exact h
      | ok o₂ =>
        rw [h₁, h₂] at h
        simp [Except.map] at h
    | ok o₁ =>
      cases h₂ : generate_single_patient rng profile request_method
          resource_filter now₂ with
      | error e₂ =>
        rw [h₁, h₂] at h
        simp [Except.map] at h
      | ok o₂ =>
        rw [h₁, h₂] at h
        simp only [Except.map, Except.ok.injEq, eraseOut3, Prod.mk.injEq] at h
        obtain ⟨hl, hm, hr⟩ := h
        dsimp only
        rw [hm]
        have hc : [o₁.1].map (List.map Resource.timeErase) =
            [o₂.1].map (List.map Resource.timeErase) := by
          simp only [List.map_cons, List.map_nil, hl]
        have hp := map2_proj_of_erase o₂.2.1 [o₁.1] [o₂.1] hc
        exact congrArg (fun z => Except.ok (z, o₂.2.1)) hp
  · rw [if_neg hmode, if_neg hmode]
    have h := cohortLoop_nowInv profile request_method resource_filter now₁ now₂
      count rng
    cases h₁ : cohortLoop profile request_method resource_filter now₁ count rng with
    | error e =>
      cases h₂ : cohortLoop profile request_method resource_filter now₂ count rng with
      | error e₂ =>
        rw [h₁, h₂] at h
        simp [Except.map] at h ⊢
        exact h
      | ok o₂ =>
        rw [h₁, h₂] at h
        simp [Except.map] at h
    | ok o₁ =>
      cases h₂ : cohortLoop profile request_method resource_filter now₂ count rng with
      | error e₂ =>
        rw [h₁, h₂] at h
        simp [Except.map] at h
      | ok o₂ =>
        rw [h₁, h₂] at h
        simp only [Except.map, Except.ok.injEq, eraseOut3, Prod.mk.injEq] at h
        obtain ⟨hl, hm, hr⟩ := h
        dsimp only
        rw [hm]
        have hch : (chunkList bundle_size o₁.1).map (List.map Resource.timeErase) =
            (chunkList bundle_size o₂.1).map (List.map Resource.timeErase) := by
          rw [chunkList_map, chunkList_map, hl]
        have hiemp : (chunkList bundle_size o₁.1).isEmpty =
            (chunkList bundle_size o₂.1).isEmpty := by
          rcases e₁ : chunkList bundle_size o₁.1 with _ | ⟨a, t⟩ <;>
            rcases e₂ : chunkList bundle_size o₂.1 with _ | ⟨b, t₂⟩ <;>
            rw [e₁, e₂] at hch <;> first | rfl | simp at hch
        rw [hiemp]
        have hcont : (if (chunkList bundle_size o₂.1).isEmpty then [[]]
              else chunkList bundle_size o₁.1).map (List.map Resource.timeErase) =
            (if (chunkList bundle_size o₂.1).isEmpty then [[]]
              else chunkList bundle_size o₂.1).map (List.map Resource.timeErase) := by
          cases hq : (chunkList bundle_size o₂.1).isEmpty with
          | true => simp [hq]
          | false => simp [hq, hch]
        have hp := map2_proj_of_erase o₂.2.1
          (if (chunkList bundle_size o₂.1).isEmpty then [[]]
            else chunkList bundle_size o₁.1)
          (if (chunkList bundle_size o₂.1).isEmpty then [[]]
            else chunkList bundle_size o₂.1) hcont
        exact congrArg (fun z => Except.ok (z, o₂.2.1)) hp

/-- Witness for C9: filtering [Patient, Condition] by ["Condition"] — the
condition survives and the subject Patient is re-inserted. -/
theorem filter_resources_allowlist_witness :
    (["Condition"] : List String) ≠ [] ∧
    (Resource.patient samplePatient).rtype = "Patient" ∧
    ((Resource.condition "c1" "Patient/pat-1" none 0) ∈
        filter_resources ["Condition"]
          [Resource.patient samplePatient,
           Resource.condition "c1" "Patient/pat-1" none 0] ↔
      (((Resource.condition "c1" "Patient/pat-1" none 0) ∈
          [Resource.patient samplePatient,
           Resource.condition "c1" "Patient/pat-1" none 0] ∧
        (Resource.condition "c1" "Patient/pat-1" none 0).rtype ∈ ["Condition"]) ∨
       ((Resource.condition "c1" "Patient/pat-1" none 0) =
          Resource.patient samplePatient ∧
        ∃ s ∈ [Resource.patient samplePatient,
               Resource.condition "c1" "Patient/pat-1" none 0],
          s.rtype ∈ ["Condition"]))) :=
  ⟨by decide, rfl,
   filter_resources_allowlist ["Condition"] (Resource.patient samplePatient)
     [Resource.condition "c1" "Patient/pat-1" none 0] (by decide) rfl
     (Resource.condition "c1" "Patient/pat-1" none 0)⟩

end Kindling
